import Mathlib

/-!
Verification model of the Path Management Core in
`src/tactical_drawing_icd.py` (classes `PathManager` and
`TacticalDrawingTab`).

Modelling decisions, all taken from the source:

* Waypoints are Python 2-element lists `[lat, lon]`.  No code mutates a
  waypoint in place (every write installs a fresh `[lat, lon]` list), so a
  waypoint is modelled as an immutable pair `α × α`.
* The points list of a path *is* mutated in place (`insert`, `pop`,
  `points[i] = ...`) and is shared between the store, the values returned
  by `get_path_by_id` / `get_all_paths` (which are shallow `dict.copy()`s)
  and the edit snapshot.  We therefore model Python list objects with an
  explicit heap: a path record holds an address (`pointsRef`) into the
  heap, `list.copy` / `[p[:] for p in pts]` allocates a fresh address, and
  in-place mutation writes through the address.
* Numbers are modelled over an arbitrary linear ordered field with a floor
  (instantiated at `ℚ` for executable witnesses and at `ℝ` for the
  geodesic computations).  The transcendental helpers of the source
  (`_calculate_distance` via `math.sin`/`asin`, the `atan2`-based part of
  `_calculate_heading`) are passed to the store operations as an explicit
  parameter `Geo`; the real instantiation `realGeo` below defines them
  from the source formulas over `ℝ`.
* `random.randint` draws and `datetime.now()` timestamps are external
  inputs and appear as explicit arguments.
* Python `dict`s (insertion ordered, unique string keys) are association
  lists.
-/

namespace TacticalDrawing

/-- A waypoint `[lat, lon]` (degrees). -/
abbrev Wp (α : Type) := α × α

/-- The heap of mutable Python list objects holding the points lists.
Addresses are indices into `mem`. -/
structure Heap (α : Type) where
  mem : List (List (Wp α))
  deriving DecidableEq

/-- Allocate a fresh list object, returning the new heap and its address. -/
def Heap.alloc {α : Type} (h : Heap α) (v : List (Wp α)) : Heap α × Nat :=
  (⟨h.mem ++ [v]⟩, h.mem.length)

/-- Dereference an address (addresses produced by the model are always
in range; out-of-range reads return `[]`). -/
def Heap.get {α : Type} (h : Heap α) (r : Nat) : List (Wp α) :=
  h.mem.getD r []

/-- Overwrite the list object at an address (in-place list mutation). -/
def Heap.set {α : Type} (h : Heap α) (r : Nat) (v : List (Wp α)) : Heap α :=
  ⟨h.mem.set r v⟩

/-- One path entity: the value of the Python dict built in
`add_aircraft_path` / `add_track_path`.  `pointsRef` is the address of the
mutable points list; all other fields are immutable Python scalars, so
they live directly in the record. -/
structure PyPath (α : Type) where
  id : String
  type : String
  pointsRef : Nat
  distance_nm : α
  speed_kts : α
  altitude_ft : α
  current_position : α
  color : String
  created : String
  deriving DecidableEq

/-- The external mathematical functions used by the store:
`calcDist` is `PathManager._calculate_distance` and `atan2deg y x` is
`math.degrees(math.atan2(y, x))`.  They are parameters because they are
transcendental; `realGeo` below instantiates them over `ℝ` from the
source formulas. -/
structure Geo (α : Type) where
  calcDist : List (Wp α) → α
  atan2deg : α → α → α

/-- `PathManager.__init__`: the two dicts and the two id counters. -/
structure PathManager (α : Type) where
  aircraft_paths : List (String × PyPath α)
  track_paths : List (String × PyPath α)
  next_aircraft_id : Nat
  next_track_id : Nat
  deriving DecidableEq

/-- Lookup in a Python dict modelled as an association list. -/
def assocGet {β : Type} (l : List (String × β)) (k : String) : Option β :=
  match l.find? (fun e => e.1 == k) with
  | some e => some e.2
  | none => none

/-- Update the value stored under a key (in-place dict value mutation). -/
def assocSet {β : Type} (l : List (String × β)) (k : String) (f : β → β) :
    List (String × β) :=
  l.map (fun e => if e.1 == k then (e.1, f e.2) else e)

/-- `dict.pop(k)`: drop the entry with the given key. -/
def assocRemove {β : Type} (l : List (String × β)) (k : String) :
    List (String × β) :=
  l.filter (fun e => !(e.1 == k))

/-- Python `f"{n:04d}"`. -/
def pad4 (n : Nat) : String :=
  let s := toString n
  if s.length < 4 then String.mk (List.replicate (4 - s.length) '0') ++ s else s

variable {α : Type} [LinearOrderedField α] [FloorRing α]

/-- `PathManager.add_aircraft_path(points, distance, speed, altitude)`.
`points` is the caller-built list (freshly allocated here), `rnd_speed`
and `rnd_alt` are the values the two `random.randint` calls would return,
`created` is `datetime.now().isoformat()`.  `speed if speed else rnd`
treats both `None` and `0` as absent (Python truthiness). -/
def PathManager.add_aircraft_path (pm : PathManager α) (h : Heap α)
    (points : List (Wp α)) (distance : α) (speed altitude : Option α)
    (rnd_speed rnd_alt : α) (created : String) :
    PathManager α × Heap α × String × PyPath α :=
  let ar := h.alloc points
  let pid := "AC-" ++ pad4 pm.next_aircraft_id
  let p : PyPath α :=
    { id := pid
      type := "aircraft"
      pointsRef := ar.2
      distance_nm := distance
      speed_kts := match speed with
        | some v => if v = 0 then rnd_speed else v
        | none => rnd_speed
      altitude_ft := match altitude with
        | some v => if v = 0 then rnd_alt else v
        | none => rnd_alt
      current_position := 0
      color := "green"
      created := created }
  ({ pm with
      aircraft_paths := pm.aircraft_paths ++ [(pid, p)]
      next_aircraft_id := pm.next_aircraft_id + 1 }, ar.1, pid, p)

/-- `PathManager.add_track_path`: same shape with the `TRK-` prefix,
`red`, and the track random ranges. -/
def PathManager.add_track_path (pm : PathManager α) (h : Heap α)
    (points : List (Wp α)) (distance : α) (speed altitude : Option α)
    (rnd_speed rnd_alt : α) (created : String) :
    PathManager α × Heap α × String × PyPath α :=
  let ar := h.alloc points
  let pid := "TRK-" ++ pad4 pm.next_track_id
  let p : PyPath α :=
    { id := pid
      type := "track"
      pointsRef := ar.2
      distance_nm := distance
      speed_kts := match speed with
        | some v => if v = 0 then rnd_speed else v
        | none => rnd_speed
      altitude_ft := match altitude with
        | some v => if v = 0 then rnd_alt else v
        | none => rnd_alt
      current_position := 0
      color := "red"
      created := created }
  ({ pm with
      track_paths := pm.track_paths ++ [(pid, p)]
      next_track_id := pm.next_track_id + 1 }, ar.1, pid, p)

/-- `PathManager.get_all_paths`: builds a fresh dict, `update`s it with
both partitions (ids are prefix-disjoint) and returns a shallow copy:
the returned records are the stored records, sharing `pointsRef`. -/
def PathManager.get_all_paths (pm : PathManager α) : List (String × PyPath α) :=
  pm.aircraft_paths ++ pm.track_paths

/-- `PathManager.get_path_by_id`: aircraft partition first, then tracks;
returns a shallow `dict.copy()` (same `pointsRef`) or `None`. -/
def PathManager.get_path_by_id (pm : PathManager α) (pid : String) :
    Option (PyPath α) :=
  match assocGet pm.aircraft_paths pid with
  | some p => some p
  | none => assocGet pm.track_paths pid

/-- The source's repeated `if path_id in aircraft: ... elif path_id in
track: ...` mutation pattern. -/
def PathManager.modifyPath (pm : PathManager α) (pid : String)
    (f : PyPath α → PyPath α) : PathManager α :=
  if (assocGet pm.aircraft_paths pid).isSome then
    { pm with aircraft_paths := assocSet pm.aircraft_paths pid f }
  else if (assocGet pm.track_paths pid).isSome then
    { pm with track_paths := assocSet pm.track_paths pid f }
  else pm

/-- `PathManager.update_path_points`: wholesale replace of the points
list (the caller passes a freshly parsed list, allocated here),
recompute distance, clamp progress to at most `0.999`. -/
def PathManager.update_path_points (g : Geo α) (pm : PathManager α)
    (h : Heap α) (pid : String) (newPts : List (Wp α)) :
    PathManager α × Heap α × Bool :=
  if (pm.get_path_by_id pid).isSome then
    let ar := h.alloc newPts
    (pm.modifyPath pid (fun p =>
      { p with
          pointsRef := ar.2
          distance_nm := g.calcDist newPts
          current_position := min p.current_position 0.999 }), ar.1, true)
  else (pm, h, false)

/-- `PathManager.insert_waypoint`: guard `0 <= index <= len(points)`,
then `points.insert(index, pt)` in place and recompute distance. -/
def PathManager.insert_waypoint (g : Geo α) (pm : PathManager α)
    (h : Heap α) (pid : String) (index : Int) (pt : Wp α) :
    PathManager α × Heap α × Bool :=
  match pm.get_path_by_id pid with
  | none => (pm, h, false)
  | some p =>
    let pts := h.get p.pointsRef
    if 0 ≤ index ∧ index ≤ (pts.length : Int) then
      let newPts := pts.insertIdx index.toNat pt
      (pm.modifyPath pid (fun q => { q with distance_nm := g.calcDist newPts }),
       h.set p.pointsRef newPts, true)
    else (pm, h, false)

/-- `PathManager.remove_waypoint`: guard `len(points) > 2` and
`0 <= index < len(points)`, then `points.pop(index)` in place and
recompute distance; returns `False` (state unchanged) otherwise. -/
def PathManager.remove_waypoint (g : Geo α) (pm : PathManager α)
    (h : Heap α) (pid : String) (index : Int) :
    PathManager α × Heap α × Bool :=
  match pm.get_path_by_id pid with
  | none => (pm, h, false)
  | some p =>
    let pts := h.get p.pointsRef
    if 2 < pts.length ∧ 0 ≤ index ∧ index < (pts.length : Int) then
      let newPts := pts.eraseIdx index.toNat
      (pm.modifyPath pid (fun q => { q with distance_nm := g.calcDist newPts }),
       h.set p.pointsRef newPts, true)
    else (pm, h, false)

/-- `PathManager.delete_path`: pop from whichever dict holds the id,
returning the removed record, or `None`. -/
def PathManager.delete_path (pm : PathManager α) (pid : String) :
    PathManager α × Option (PyPath α) :=
  match assocGet pm.aircraft_paths pid with
  | some p =>
    ({ pm with aircraft_paths := assocRemove pm.aircraft_paths pid }, some p)
  | none =>
    match assocGet pm.track_paths pid with
    | some p =>
      ({ pm with track_paths := assocRemove pm.track_paths pid }, some p)
    | none => (pm, none)

/-- `PathManager.clear_all`. -/
def PathManager.clear_all (pm : PathManager α) : PathManager α :=
  { pm with
      aircraft_paths := []
      track_paths := []
      next_aircraft_id := 1
      next_track_id := 1 }

/-- Python `int(x)`: truncation toward zero. -/
def pyInt (x : α) : Int :=
  if x < 0 then -⌊-x⌋ else ⌊x⌋

/-- Python `x % m` for floats with `m > 0`. -/
def pyMod (x m : α) : α :=
  x - m * ⌊x / m⌋

/-- Python list indexing `l[i]` with negative-index wraparound (the
model never indexes out of range; out-of-range reads default). -/
def pyIndex (l : List (Wp α)) (i : Int) : Wp α :=
  if i < 0 then l.getD (l.length - (-i).toNat) (0, 0)
  else l.getD i.toNat (0, 0)

/-- `PathManager._interpolate_path`. -/
def interpolate_path (pts : List (Wp α)) (position : α) : Wp α :=
  if pts.length < 2 then
    match pts with
    | [] => (0, 0)
    | p :: _ => p
  else
    let segment_length : α := 1 / ((pts.length : α) - 1)
    let segment_index : Int := pyInt (position / segment_length)
    if ((pts.length : Int) - 1) ≤ segment_index then
      pyIndex pts (-1)
    else
      let local_position :=
        (position - (segment_index : α) * segment_length) / segment_length
      let p1 := pyIndex pts segment_index
      let p2 := pyIndex pts (segment_index + 1)
      (p1.1 + (p2.1 - p1.1) * local_position,
       p1.2 + (p2.2 - p1.2) * local_position)

/-- `PathManager._calculate_heading`: samples the interpolation at the
position and slightly ahead, then `degrees(atan2(dlon, dlat)) % 360`
(0 when the samples coincide or fewer than 2 points). -/
def calculate_heading (g : Geo α) (pts : List (Wp α)) (position : α) : α :=
  if pts.length < 2 then 0
  else
    let current := interpolate_path pts position
    let next_pos := min (position + 0.01) 0.999
    let next_point := interpolate_path pts next_pos
    let dlat := next_point.1 - current.1
    let dlon := next_point.2 - current.2
    if dlat = 0 ∧ dlon = 0 then 0
    else pyMod (g.atan2deg dlon dlat) 360

/-- The per-path body of `PathManager.update_positions`: advance the
progress by `(speed/3600*delta)/distance` and wrap with `% 1.0` once it
reaches `1.0`; a path with nonpositive distance is left untouched. -/
def advance_path (delta : α) (p : PyPath α) : PyPath α :=
  if 0 < p.distance_nm then
    let position_delta := p.speed_kts / 3600 * delta / p.distance_nm
    let np := p.current_position + position_delta
    let np := if 1 ≤ np then Int.fract np else np
    { p with current_position := np }
  else p

/-- One entry of the update batch (`{id, type, lat, lon, alt, speed,
heading}`), built from the already-advanced path. -/
structure PosUpdate (α : Type) where
  id : String
  type : String
  lat : α
  lon : α
  alt : α
  speed : α
  heading : α
  deriving DecidableEq

/-- Build one `PositionUpdate` dict; `ty` is the hardcoded per-loop
`'aircraft'` / `'track'` string of the source. -/
def mk_update (g : Geo α) (h : Heap α) (ty : String) (p : PyPath α) :
    PosUpdate α :=
  let pts := h.get p.pointsRef
  let cur := interpolate_path pts p.current_position
  { id := p.id
    type := ty
    lat := cur.1
    lon := cur.2
    alt := p.altitude_ft
    speed := p.speed_kts
    heading := calculate_heading g pts p.current_position }

/-- `PathManager.update_positions(delta_time)`: both loops (aircraft
first, then tracks), each path advanced in place, one update appended per
path whose distance is positive. -/
def PathManager.update_positions (g : Geo α) (pm : PathManager α)
    (h : Heap α) (delta : α) : PathManager α × List (PosUpdate α) :=
  let air := pm.aircraft_paths.map (fun e => (e.1, advance_path delta e.2))
  let trk := pm.track_paths.map (fun e => (e.1, advance_path delta e.2))
  let airUps := air.filterMap (fun e =>
    if 0 < e.2.distance_nm then some (mk_update g h "aircraft" e.2) else none)
  let trkUps := trk.filterMap (fun e =>
    if 0 < e.2.distance_nm then some (mk_update g h "track" e.2) else none)
  ({ pm with aircraft_paths := air, track_paths := trk }, airUps ++ trkUps)

/-- The editing-relevant state of `TacticalDrawingTab`: the owned
`PathManager`, the heap of points-list objects, and the two edit-session
fields `editing_path_id` / `original_path_data`. -/
structure TabState (α : Type) where
  pm : PathManager α
  heap : Heap α
  editing_path_id : Option String
  original_path_data : Option (PyPath α)
  deriving DecidableEq

/-- `TacticalDrawingTab.start_path_editing` (with the selected path id as
argument): fetch the path (`None` shows a warning and leaves the state
unchanged), deep-copy its points (`[p[:] for p in points]`, a fresh list
object) into the snapshot, and record the session.  Note the source has
no already-editing guard: the fields are simply overwritten. -/
def TabState.start_path_editing (ts : TabState α) (pid : String) : TabState α :=
  match ts.pm.get_path_by_id pid with
  | none => ts
  | some pd =>
    let ar := ts.heap.alloc (ts.heap.get pd.pointsRef)
    { ts with
        heap := ar.1
        editing_path_id := some pid
        original_path_data := some { pd with pointsRef := ar.2 } }

/-- The field-for-field restore performed by `cancel_path_editing`:
points get a fresh deep copy (address `r`), the four scalar fields come
from the snapshot; `id`, `type`, `color`, `created` are not touched. -/
def restoreFields (original : PyPath α) (r : Nat) (p : PyPath α) : PyPath α :=
  { p with
      pointsRef := r
      distance_nm := original.distance_nm
      speed_kts := original.speed_kts
      altitude_ft := original.altitude_ft
      current_position := original.current_position }

/-- `TacticalDrawingTab.cancel_path_editing`: no-op unless a session with
a snapshot is active; otherwise overwrite the live path's points
(`[p[:] for p in original['points']]`, a fresh list), distance, speed,
altitude and progress from the snapshot (aircraft dict first, then
tracks; nothing restored if the path was deleted meanwhile), then clear
the session fields. -/
def TabState.cancel_path_editing (ts : TabState α) : TabState α :=
  match ts.editing_path_id, ts.original_path_data with
  | some pid, some original =>
    if (assocGet ts.pm.aircraft_paths pid).isSome then
      { pm := { ts.pm with
          aircraft_paths := assocSet ts.pm.aircraft_paths pid
            (restoreFields original
              (ts.heap.alloc (ts.heap.get original.pointsRef)).2) }
        heap := (ts.heap.alloc (ts.heap.get original.pointsRef)).1
        editing_path_id := none
        original_path_data := none }
    else if (assocGet ts.pm.track_paths pid).isSome then
      { pm := { ts.pm with
          track_paths := assocSet ts.pm.track_paths pid
            (restoreFields original
              (ts.heap.alloc (ts.heap.get original.pointsRef)).2) }
        heap := (ts.heap.alloc (ts.heap.get original.pointsRef)).1
        editing_path_id := none
        original_path_data := none }
    else
      { pm := ts.pm
        heap := ts.heap
        editing_path_id := none
        original_path_data := none }
  | _, _ => ts

/-- `TacticalDrawingTab.on_waypoint_moved`: only while the session
targets the same path id; inline guarded write
`points[index] = [lat, lon]` plus distance recompute (aircraft dict
first, then tracks). -/
def TabState.on_waypoint_moved (g : Geo α) (ts : TabState α) (pid : String)
    (index : Int) (lat lon : α) : TabState α :=
  if ts.editing_path_id = some pid then
    match assocGet ts.pm.aircraft_paths pid with
    | some p =>
      let pts := ts.heap.get p.pointsRef
      if 0 ≤ index ∧ index < (pts.length : Int) then
        let newPts := pts.set index.toNat (lat, lon)
        { ts with
            heap := ts.heap.set p.pointsRef newPts
            pm := { ts.pm with
              aircraft_paths := assocSet ts.pm.aircraft_paths pid
                (fun q => { q with distance_nm := g.calcDist newPts }) } }
      else ts
    | none =>
      match assocGet ts.pm.track_paths pid with
      | some p =>
        let pts := ts.heap.get p.pointsRef
        if 0 ≤ index ∧ index < (pts.length : Int) then
          let newPts := pts.set index.toNat (lat, lon)
          { ts with
              heap := ts.heap.set p.pointsRef newPts
              pm := { ts.pm with
                track_paths := assocSet ts.pm.track_paths pid
                  (fun q => { q with distance_nm := g.calcDist newPts }) } }
        else ts
      | none => ts
  else ts

/-- `TacticalDrawingTab.on_waypoint_inserted`: only while the session
targets the same path id; delegates to `insert_waypoint`. -/
def TabState.on_waypoint_inserted (g : Geo α) (ts : TabState α) (pid : String)
    (index : Int) (lat lon : α) : TabState α :=
  if ts.editing_path_id = some pid then
    { ts with
        pm := (ts.pm.insert_waypoint g ts.heap pid index (lat, lon)).1
        heap := (ts.pm.insert_waypoint g ts.heap pid index (lat, lon)).2.1 }
  else ts

/-- `TacticalDrawingTab.on_waypoint_deleted`: only while the session
targets the same path id; delegates to `remove_waypoint` (a `False`
result only pops a message box). -/
def TabState.on_waypoint_deleted (g : Geo α) (ts : TabState α) (pid : String)
    (index : Int) : TabState α :=
  if ts.editing_path_id = some pid then
    { ts with
        pm := (ts.pm.remove_waypoint g ts.heap pid index).1
        heap := (ts.pm.remove_waypoint g ts.heap pid index).2.1 }
  else ts

/-- `TacticalDrawingTab.delete_selected_path` after the operator confirms
the dialog: delete from the manager (failure only pops a message box);
the session fields are not consulted. -/
def TabState.delete_selected_path (ts : TabState α) (pid : String) : TabState α :=
  let res := ts.pm.delete_path pid
  { ts with pm := res.1 }

/-- One structural edit command arriving from the map during an edit
session (waypoint drag, insertion, deletion). -/
inductive EditOp (α : Type) where
  | move (index : Int) (lat lon : α)
  | ins (index : Int) (lat lon : α)
  | del (index : Int)
  deriving DecidableEq

/-- Dispatch one edit command to the corresponding handler. -/
def TabState.applyEdit (g : Geo α) (ts : TabState α) (pid : String) :
    EditOp α → TabState α
  | EditOp.move i la lo => ts.on_waypoint_moved g pid i la lo
  | EditOp.ins i la lo => ts.on_waypoint_inserted g pid i la lo
  | EditOp.del i => ts.on_waypoint_deleted g pid i

/-- Apply a sequence of edit commands. -/
def TabState.applyEdits (g : Geo α) (ts : TabState α) (pid : String)
    (es : List (EditOp α)) : TabState α :=
  es.foldl (fun s e => s.applyEdit g pid e) ts

section Geodesy

open Real

/-- `math.radians`. -/
noncomputable def radians (x : ℝ) : ℝ := x * (Real.pi / 180)

/-- The haversine intermediate `a` of `_calculate_distance` for one
waypoint pair. -/
noncomputable def hav (p1 p2 : Wp ℝ) : ℝ :=
  let lat1 := radians p1.1
  let lon1 := radians p1.2
  let lat2 := radians p2.1
  let lon2 := radians p2.2
  let dlat := lat2 - lat1
  let dlon := lon2 - lon1
  Real.sin (dlat / 2) ^ 2 +
    Real.cos lat1 * Real.cos lat2 * Real.sin (dlon / 2) ^ 2

/-- One pairwise great-circle distance: `R * (2 * asin(sqrt(a)))` with
`R = 3440.065` (no clamping of `a` in the source). -/
noncomputable def segDist (p1 p2 : Wp ℝ) : ℝ :=
  3440.065 * (2 * Real.arcsin (Real.sqrt (hav p1 p2)))

/-- The accumulation loop of `_calculate_distance`. -/
noncomputable def sumSegs : List (Wp ℝ) → ℝ
  | p :: q :: rest => segDist p q + sumSegs (q :: rest)
  | _ => 0

/-- `PathManager._calculate_distance` (identical to
`TacticalDrawingTab.calculate_path_distance`): 0 for fewer than 2
waypoints, otherwise the sum of pairwise haversine distances. -/
noncomputable def calculate_distance (pts : List (Wp ℝ)) : ℝ :=
  if pts.length < 2 then 0 else sumSegs pts

/-- The variant the spec describes, with the haversine intermediate
clamped to `[0, 1]` before the inverse trigonometric step.  Modelled
from the spec for comparison with the source's `segDist`. -/
noncomputable def segDist_clamped (p1 p2 : Wp ℝ) : ℝ :=
  3440.065 * (2 * Real.arcsin (Real.sqrt (min 1 (max 0 (hav p1 p2)))))

/-- The clamped distance sum, modelled from the spec. -/
noncomputable def sumSegs_clamped : List (Wp ℝ) → ℝ
  | p :: q :: rest => segDist_clamped p q + sumSegs_clamped (q :: rest)
  | _ => 0

/-- The clamped total distance, modelled from the spec. -/
noncomputable def calculate_distance_clamped (pts : List (Wp ℝ)) : ℝ :=
  if pts.length < 2 then 0 else sumSegs_clamped pts

/-- Python `math.atan2(y, x)`. -/
noncomputable def pyAtan2 (y x : ℝ) : ℝ :=
  if 0 < x then Real.arctan (y / x)
  else if x < 0 then
    if 0 ≤ y then Real.arctan (y / x) + Real.pi
    else Real.arctan (y / x) - Real.pi
  else
    if 0 < y then Real.pi / 2
    else if y < 0 then -(Real.pi / 2)
    else 0

/-- The real instantiation of the store's mathematical parameters, from
the source formulas. -/
noncomputable def realGeo : Geo ℝ :=
  { calcDist := calculate_distance
    atan2deg := fun y x => pyAtan2 y x * (180 / Real.pi) }

end Geodesy

/-! The concrete end-to-end scenario A of the spec: an aircraft path
with waypoints `[[20, 78], [21, 79]]`, speed 450 kt, altitude 15000 ft
(distance computed by the haversine, as `create_manual_path` does), then
one `update_positions(3600)` call. -/

/-- The haversine distance of scenario A's two waypoints. -/
noncomputable def dA : ℝ := calculate_distance [((20 : ℝ), 78), (21, 79)]

/-- Scenario A path creation on a fresh manager. -/
noncomputable def pmR1all : PathManager ℝ × Heap ℝ × String × PyPath ℝ :=
  (⟨[], [], 1, 1⟩ : PathManager ℝ).add_aircraft_path ⟨[]⟩
    [(20, 78), (21, 79)] dA (some 450) (some 15000) 0 0 "t"

/-- The created path record. -/
noncomputable def pathR0 : PyPath ℝ := pmR1all.2.2.2

/-- One advance call of one simulated hour. -/
noncomputable def scenarioA : PathManager ℝ × List (PosUpdate ℝ) :=
  pmR1all.1.update_positions realGeo pmR1all.2.1 3600

/-- The progress of the (single) aircraft path after the advance call. -/
noncomputable def scenarioA_progress : ℝ :=
  match scenarioA.1.aircraft_paths with
  | e :: _ => e.2.current_position
  | [] => 0

/-! Concrete states used by witnesses and counterexamples. -/

/-- A concrete instantiation of the mathematical parameters over `ℚ`,
used only to instantiate universally quantified theorems in witnesses. -/
def gQ : Geo ℚ :=
  { calcDist := fun pts => (pts.length : ℚ)
    atan2deg := fun _ _ => 0 }

/-- `PathManager()` as freshly constructed. -/
def pmQ0 : PathManager ℚ := ⟨[], [], 1, 1⟩

/-- An empty heap. -/
def heapQ0 : Heap ℚ := ⟨[]⟩

/-- One aircraft path with three waypoints. -/
def sampleAdd3 : PathManager ℚ × Heap ℚ × String × PyPath ℚ :=
  pmQ0.add_aircraft_path heapQ0 [(20, 78), (21, 79), (22, 80)] 120
    (some 450) (some 15000) 500 20000 "t0"

def pmQ3 : PathManager ℚ := sampleAdd3.1

def heapQ3 : Heap ℚ := sampleAdd3.2.1

def pathQ3 : PyPath ℚ := sampleAdd3.2.2.2

def tsQ3 : TabState ℚ := ⟨pmQ3, heapQ3, none, none⟩

/-- One aircraft path with exactly two waypoints. -/
def sampleAdd2 : PathManager ℚ × Heap ℚ × String × PyPath ℚ :=
  pmQ0.add_aircraft_path heapQ0 [(20, 78), (21, 79)] 83
    (some 450) (some 15000) 500 20000 "t0"

def pmQ2 : PathManager ℚ := sampleAdd2.1

def heapQ2 : Heap ℚ := sampleAdd2.2.1

def pathQ2 : PyPath ℚ := sampleAdd2.2.2.2

/-- Two aircraft paths `AC-0001`, `AC-0002`. -/
def sampleAddB : PathManager ℚ × Heap ℚ × String × PyPath ℚ :=
  pmQ2.add_aircraft_path heapQ2 [(10, 70), (11, 71)] 90
    (some 400) (some 12000) 500 20000 "t1"

def pmQB : PathManager ℚ := sampleAddB.1

def heapQB : Heap ℚ := sampleAddB.2.1

def tsQB : TabState ℚ := ⟨pmQB, heapQB, none, none⟩

def pathQB2 : PyPath ℚ := sampleAddB.2.2.2

/-- `tsQB` after `beginEdit("AC-0001")`. -/
def tsQB1 : TabState ℚ := tsQB.start_path_editing "AC-0001"

/-- `tsQB1` after a second `beginEdit("AC-0002")` with no intervening
commit or cancel. -/
def tsQB2 : TabState ℚ := tsQB1.start_path_editing "AC-0002"

/-- The 2-waypoint state with an edit session active on `AC-0001`. -/
def tsQ2E : TabState ℚ :=
  (⟨pmQ2, heapQ2, none, none⟩ : TabState ℚ).start_path_editing "AC-0001"

/-- The live path targeted by an edit session is present (aircraft
partition first, mirroring every lookup in the source) and still holds
the points-list address `pref` it had when the session began. -/
def LivePath (pm : PathManager α) (pid : String) (pref : Nat) : Prop :=
  (∃ q, assocGet pm.aircraft_paths pid = some q ∧ q.pointsRef = pref) ∨
  (assocGet pm.aircraft_paths pid = none ∧
    ∃ q, assocGet pm.track_paths pid = some q ∧ q.pointsRef = pref)

/-- Invariant maintained by the edit handlers during a session on `pid`:
the session fields are unchanged, the snapshot's points list (address
`R`, allocated by `start_path_editing` as the then-largest address) still
holds the begin-time contents `oc`, the heap has grown by exactly the
snapshot allocation, and the live path still points at `pref`. -/
def EditInv (pid : String) (pref R : Nat) (snap : PyPath α)
    (oc : List (Wp α)) (ts : TabState α) : Prop :=
  ts.editing_path_id = some pid ∧
  ts.original_path_data = some snap ∧
  snap.pointsRef = R ∧
  ts.heap.mem.length = R + 1 ∧
  ts.heap.get R = oc ∧
  LivePath ts.pm pid pref

/-! Helper lemmas about the dict and heap models. -/

theorem assocGet_mapVal {β : Type} (l : List (String × β)) (k : String)
    (f : β → β) :
    assocGet (l.map (fun e => (e.1, f e.2))) k = (assocGet l k).map f := by
  induction l with
  | nil => rfl
  | cons e t ih =>
    by_cases hk : e.1 == k
    · simp [assocGet, List.find?, hk]
    · simp only [assocGet, List.map, List.find?, hk] at ih ⊢
      exact ih

theorem assocGet_cons {β : Type} (e : String × β) (t : List (String × β))
    (k : String) :
    assocGet (e :: t) k = if e.1 = k then some e.2 else assocGet t k := by
  by_cases h : e.1 = k
  · have hb : (e.1 == k) = true := by simpa using h
    simp [assocGet, List.find?, hb, h]
  · have hb : (e.1 == k) = false := by simpa using h
    simp [assocGet, List.find?, hb, h]

theorem assocGet_assocSet {β : Type} (l : List (String × β)) (k k' : String)
    (f : β → β) :
    assocGet (assocSet l k f) k' =
      if k = k' then (assocGet l k').map f else assocGet l k' := by
  induction l with
  | nil => by_cases h : k = k' <;> simp [assocSet, assocGet, h]
  | cons e t ih =>
    have hstep : assocSet (e :: t) k f =
        (if e.1 == k then (e.1, f e.2) else e) :: assocSet t k f := rfl
    rw [hstep]
    by_cases he : e.1 = k
    · by_cases hkk : k = k'
      · subst hkk
        simp [assocGet_cons, he]
      · simp [assocGet_cons, he, hkk, ih]
    · by_cases he2 : e.1 = k'
      · have hkk : ¬k = k' := fun hh => he (hh ▸ he2)
        have hkk2 : ¬k' = k := fun hh => hkk hh.symm
        simp [assocGet_cons, he, he2, hkk, hkk2]
      · simp [assocGet_cons, he, he2, ih]

theorem assocGet_assocRemove_self {β : Type} (l : List (String × β))
    (k : String) :
    assocGet (assocRemove l k) k = none := by
  induction l with
  | nil => rfl
  | cons e t ih =>
    by_cases hk : e.1 == k
    · simpa [assocRemove, hk] using ih
    · simpa [assocRemove, assocGet, List.find?, hk] using ih

theorem assocGet_assocRemove_ne {β : Type} (l : List (String × β))
    (k k' : String) (h : k ≠ k') :
    assocGet (assocRemove l k) k' = assocGet l k' := by
  induction l with
  | nil => rfl
  | cons e t ih =>
    by_cases hk : e.1 == k
    · have hk2 : (e.1 == k') = false := by
        have : e.1 = k := by simpa using hk
        simp [this, h]
      simpa [assocRemove, assocGet, List.find?, hk, hk2] using ih
    · by_cases hk2 : e.1 == k'
      · simp [assocRemove, assocGet, List.find?, hk, hk2]
      · simpa [assocRemove, assocGet, List.find?, hk, hk2] using ih

theorem heap_get_alloc_self {α : Type} [LinearOrderedField α] (h : Heap α)
    (v : List (Wp α)) :
    (h.alloc v).1.get (h.alloc v).2 = v := by
  simp [Heap.alloc, Heap.get, List.getD_eq_getElem?_getD,
    List.getElem?_append_right]

theorem heap_get_alloc_lt {α : Type} [LinearOrderedField α] (h : Heap α)
    (v : List (Wp α)) (r : Nat) (hr : r < h.mem.length) :
    (h.alloc v).1.get r = h.get r := by
  simp [Heap.alloc, Heap.get, List.getD_eq_getElem?_getD,
    List.getElem?_append_left hr]

theorem heap_get_set_ne {α : Type} [LinearOrderedField α] (h : Heap α)
    (r r' : Nat) (v : List (Wp α)) (hne : r ≠ r') :
    (h.set r v).get r' = h.get r' := by
  simp [Heap.set, Heap.get, List.getD_eq_getElem?_getD,
    List.getElem?_set_ne hne]

theorem heap_get_set_self {α : Type} [LinearOrderedField α] (h : Heap α)
    (r : Nat) (v : List (Wp α)) (hr : r < h.mem.length) :
    (h.set r v).get r = v := by
  simp [Heap.set, Heap.get, List.getD_eq_getElem?_getD,
    List.getElem?_set_self, hr]

theorem heap_length_set {α : Type} [LinearOrderedField α] (h : Heap α)
    (r : Nat) (v : List (Wp α)) :
    (h.set r v).mem.length = h.mem.length := by
  simp [Heap.set]

theorem heap_length_alloc {α : Type} [LinearOrderedField α] (h : Heap α)
    (v : List (Wp α)) :
    (h.alloc v).1.mem.length = h.mem.length + 1 := by
  simp [Heap.alloc]

theorem get_path_by_id_modifyPath (pm : PathManager α) (pid : String)
    (f : PyPath α → PyPath α) :
    (pm.modifyPath pid f).get_path_by_id pid =
      (pm.get_path_by_id pid).map f := by
  unfold PathManager.modifyPath PathManager.get_path_by_id
  by_cases ha : (assocGet pm.aircraft_paths pid).isSome
  · rcases Option.isSome_iff_exists.mp ha with ⟨p, hp⟩
    simp [ha, assocGet_assocSet, hp]
  · have ha' : assocGet pm.aircraft_paths pid = none :=
      Option.not_isSome_iff_eq_none.mp ha
    by_cases ht : (assocGet pm.track_paths pid).isSome
    · rcases Option.isSome_iff_exists.mp ht with ⟨p, hp⟩
      simp [ha, ha', ht, assocGet_assocSet, hp]
    · have ht' : assocGet pm.track_paths pid = none :=
        Option.not_isSome_iff_eq_none.mp ht
      simp [ha, ha', ht, ht']

theorem remove_waypoint_of_none (g : Geo α) (pm : PathManager α) (h : Heap α)
    (pid : String) (index : Int)
    (hnone : pm.get_path_by_id pid = none) :
    pm.remove_waypoint g h pid index = (pm, h, false) := by
  unfold PathManager.remove_waypoint
  rw [hnone]

theorem remove_waypoint_of_found (g : Geo α) (pm : PathManager α) (h : Heap α)
    (pid : String) (index : Int) (p : PyPath α)
    (hp : pm.get_path_by_id pid = some p) :
    pm.remove_waypoint g h pid index =
      if 2 < (h.get p.pointsRef).length ∧ 0 ≤ index ∧
          index < ((h.get p.pointsRef).length : Int) then
        (pm.modifyPath pid (fun q =>
           { q with distance_nm :=
               g.calcDist ((h.get p.pointsRef).eraseIdx index.toNat) }),
         h.set p.pointsRef ((h.get p.pointsRef).eraseIdx index.toNat), true)
      else (pm, h, false) := by
  unfold PathManager.remove_waypoint
  rw [hp]

theorem get_path_by_id_of_air (pm : PathManager α) (pid : String)
    (q : PyPath α) (hq : assocGet pm.aircraft_paths pid = some q) :
    pm.get_path_by_id pid = some q := by
  unfold PathManager.get_path_by_id
  rw [hq]

theorem get_path_by_id_of_trk (pm : PathManager α) (pid : String)
    (q : PyPath α) (ha : assocGet pm.aircraft_paths pid = none)
    (hq : assocGet pm.track_paths pid = some q) :
    pm.get_path_by_id pid = some q := by
  unfold PathManager.get_path_by_id
  rw [ha]
  exact hq

theorem get_path_by_id_cases (pm : PathManager α) (pid : String)
    (p : PyPath α) (hp : pm.get_path_by_id pid = some p) :
    assocGet pm.aircraft_paths pid = some p ∨
    (assocGet pm.aircraft_paths pid = none ∧
      assocGet pm.track_paths pid = some p) := by
  unfold PathManager.get_path_by_id at hp
  cases ha : assocGet pm.aircraft_paths pid with
  | some q =>
    rw [ha] at hp
    exact Or.inl hp
  | none =>
    rw [ha] at hp
    exact Or.inr ⟨rfl, hp⟩

theorem insert_waypoint_of_found (g : Geo α) (pm : PathManager α)
    (h : Heap α) (pid : String) (index : Int) (pt : Wp α) (p : PyPath α)
    (hp : pm.get_path_by_id pid = some p) :
    pm.insert_waypoint g h pid index pt =
      if 0 ≤ index ∧ index ≤ ((h.get p.pointsRef).length : Int) then
        (pm.modifyPath pid (fun q =>
           { q with distance_nm :=
               g.calcDist ((h.get p.pointsRef).insertIdx index.toNat pt) }),
         h.set p.pointsRef ((h.get p.pointsRef).insertIdx index.toNat pt), true)
      else (pm, h, false) := by
  unfold PathManager.insert_waypoint
  rw [hp]

theorem livePath_modifyPath (pm : PathManager α) (pid : String) (pref : Nat)
    (f : PyPath α → PyPath α) (hf : ∀ q, (f q).pointsRef = q.pointsRef)
    (hl : LivePath pm pid pref) : LivePath (pm.modifyPath pid f) pid pref := by
  unfold PathManager.modifyPath
  rcases hl with ⟨q, hq, hr⟩ | ⟨ha, q, hq, hr⟩
  · rw [if_pos (by rw [hq]; rfl)]
    left
    refine ⟨f q, ?_, by rw [hf]; exact hr⟩
    show assocGet (assocSet pm.aircraft_paths pid f) pid = some (f q)
    rw [assocGet_assocSet, if_pos rfl, hq, Option.map_some']
  · rw [if_neg (by rw [ha]; simp), if_pos (by rw [hq]; rfl)]
    right
    refine ⟨ha, f q, ?_, by rw [hf]; exact hr⟩
    show assocGet (assocSet pm.track_paths pid f) pid = some (f q)
    rw [assocGet_assocSet, if_pos rfl, hq, Option.map_some']

theorem livePath_get (pm : PathManager α) (pid : String) (pref : Nat)
    (hl : LivePath pm pid pref) :
    ∃ q, pm.get_path_by_id pid = some q ∧ q.pointsRef = pref := by
  rcases hl with ⟨q, hq, hr⟩ | ⟨ha, q, hq, hr⟩
  · exact ⟨q, get_path_by_id_of_air pm pid q hq, hr⟩
  · exact ⟨q, get_path_by_id_of_trk pm pid q ha hq, hr⟩

theorem start_path_editing_of_found (ts : TabState α) (pid : String)
    (pd : PyPath α) (hp : ts.pm.get_path_by_id pid = some pd) :
    ts.start_path_editing pid =
      { ts with
          heap := (ts.heap.alloc (ts.heap.get pd.pointsRef)).1
          editing_path_id := some pid
          original_path_data := some { pd with pointsRef := (ts.heap.alloc (ts.heap.get pd.pointsRef)).2 } } := by
  unfold TabState.start_path_editing
  rw [hp]

theorem on_waypoint_moved_inv (g : Geo α) (pid : String) (pref R : Nat)
    (snap : PyPath α) (oc : List (Wp α)) (hne : pref ≠ R)
    (ts : TabState α) (hInv : EditInv pid pref R snap oc ts)
    (i : Int) (la lo : α) :
    EditInv pid pref R snap oc (ts.on_waypoint_moved g pid i la lo) := by
  obtain ⟨hed, horig, hsr, hlen, hgetR, hlive⟩ := hInv
  unfold TabState.on_waypoint_moved
  rw [if_pos hed]
  rcases hlive with ⟨q, hq, hr⟩ | ⟨ha, q, hq, hr⟩
  · simp only [hq]
    by_cases hg : 0 ≤ i ∧ i < ((ts.heap.get q.pointsRef).length : Int)
    · rw [if_pos hg]
      refine ⟨hed, horig, hsr, ?_, ?_, ?_⟩
      · show (ts.heap.set q.pointsRef _).mem.length = R + 1
        rw [heap_length_set]
        exact hlen
      · show (ts.heap.set q.pointsRef _).get R = oc
        rw [heap_get_set_ne _ _ _ _ (fun hh => hne (hr.symm.trans hh))]
        exact hgetR
      · left
        refine ⟨{ q with distance_nm := g.calcDist ((ts.heap.get q.pointsRef).set i.toNat (la, lo)) }, ?_, hr⟩
        have key := assocGet_assocSet ts.pm.aircraft_paths pid pid (fun q2 => { q2 with distance_nm := g.calcDist ((ts.heap.get q.pointsRef).set i.toNat (la, lo)) })
        rw [if_pos rfl, hq, Option.map_some'] at key
        exact key
    · rw [if_neg hg]
      exact ⟨hed, horig, hsr, hlen, hgetR, Or.inl ⟨q, hq, hr⟩⟩
  · simp only [ha, hq]
    by_cases hg : 0 ≤ i ∧ i < ((ts.heap.get q.pointsRef).length : Int)
    · rw [if_pos hg]
      refine ⟨hed, horig, hsr, ?_, ?_, ?_⟩
      · show (ts.heap.set q.pointsRef _).mem.length = R + 1
        rw [heap_length_set]
        exact hlen
      · show (ts.heap.set q.pointsRef _).get R = oc
        rw [heap_get_set_ne _ _ _ _ (fun hh => hne (hr.symm.trans hh))]
        exact hgetR
      · right
        refine ⟨ha, { q with distance_nm := g.calcDist ((ts.heap.get q.pointsRef).set i.toNat (la, lo)) }, ?_, hr⟩
        have key := assocGet_assocSet ts.pm.track_paths pid pid (fun q2 => { q2 with distance_nm := g.calcDist ((ts.heap.get q.pointsRef).set i.toNat (la, lo)) })
        rw [if_pos rfl, hq, Option.map_some'] at key
        exact key
    · rw [if_neg hg]
      exact ⟨hed, horig, hsr, hlen, hgetR, Or.inr ⟨ha, q, hq, hr⟩⟩

theorem on_waypoint_inserted_inv (g : Geo α) (pid : String) (pref R : Nat)
    (snap : PyPath α) (oc : List (Wp α)) (hne : pref ≠ R)
    (ts : TabState α) (hInv : EditInv pid pref R snap oc ts)
    (i : Int) (la lo : α) :
    EditInv pid pref R snap oc (ts.on_waypoint_inserted g pid i la lo) := by
  obtain ⟨hed, horig, hsr, hlen, hgetR, hlive⟩ := hInv
  obtain ⟨q, hq, hr⟩ := livePath_get ts.pm pid pref hlive
  unfold TabState.on_waypoint_inserted
  rw [if_pos hed, insert_waypoint_of_found g ts.pm ts.heap pid i (la, lo) q hq]
  by_cases hg : 0 ≤ i ∧ i ≤ ((ts.heap.get q.pointsRef).length : Int)
  · rw [if_pos hg]
    refine ⟨hed, horig, hsr, ?_, ?_, ?_⟩
    · show (ts.heap.set q.pointsRef _).mem.length = R + 1
      rw [heap_length_set]
      exact hlen
    · show (ts.heap.set q.pointsRef _).get R = oc
      rw [heap_get_set_ne _ _ _ _ (fun hh => hne (hr.symm.trans hh))]
      exact hgetR
    · exact livePath_modifyPath ts.pm pid pref _ (fun q2 => rfl) hlive
  · rw [if_neg hg]
    exact ⟨hed, horig, hsr, hlen, hgetR, hlive⟩

theorem on_waypoint_deleted_inv (g : Geo α) (pid : String) (pref R : Nat)
    (snap : PyPath α) (oc : List (Wp α)) (hne : pref ≠ R)
    (ts : TabState α) (hInv : EditInv pid pref R snap oc ts) (i : Int) :
    EditInv pid pref R snap oc (ts.on_waypoint_deleted g pid i) := by
  obtain ⟨hed, horig, hsr, hlen, hgetR, hlive⟩ := hInv
  obtain ⟨q, hq, hr⟩ := livePath_get ts.pm pid pref hlive
  unfold TabState.on_waypoint_deleted
  rw [if_pos hed, remove_waypoint_of_found g ts.pm ts.heap pid i q hq]
  by_cases hg : 2 < (ts.heap.get q.pointsRef).length ∧ 0 ≤ i ∧
      i < ((ts.heap.get q.pointsRef).length : Int)
  · rw [if_pos hg]
    refine ⟨hed, horig, hsr, ?_, ?_, ?_⟩
    · show (ts.heap.set q.pointsRef _).mem.length = R + 1
      rw [heap_length_set]
      exact hlen
    · show (ts.heap.set q.pointsRef _).get R = oc
      rw [heap_get_set_ne _ _ _ _ (fun hh => hne (hr.symm.trans hh))]
      exact hgetR
    · exact livePath_modifyPath ts.pm pid pref _ (fun q2 => rfl) hlive
  · rw [if_neg hg]
    exact ⟨hed, horig, hsr, hlen, hgetR, hlive⟩

theorem applyEdit_inv (g : Geo α) (pid : String) (pref R : Nat)
    (snap : PyPath α) (oc : List (Wp α)) (hne : pref ≠ R)
    (ts : TabState α) (hInv : EditInv pid pref R snap oc ts) (e : EditOp α) :
    EditInv pid pref R snap oc (ts.applyEdit g pid e) := by
  cases e with
  | move i la lo => exact on_waypoint_moved_inv g pid pref R snap oc hne ts hInv i la lo
  | ins i la lo => exact on_waypoint_inserted_inv g pid pref R snap oc hne ts hInv i la lo
  | del i => exact on_waypoint_deleted_inv g pid pref R snap oc hne ts hInv i

theorem applyEdits_inv (g : Geo α) (pid : String) (pref R : Nat)
    (snap : PyPath α) (oc : List (Wp α)) (hne : pref ≠ R)
    (edits : List (EditOp α)) :
    ∀ ts : TabState α, EditInv pid pref R snap oc ts →
      EditInv pid pref R snap oc (ts.applyEdits g pid edits) := by
  induction edits with
  | nil => intro ts h; exact h
  | cons e rest ih =>
    intro ts h
    have hstep := applyEdit_inv g pid pref R snap oc hne ts h e
    have : ts.applyEdits g pid (e :: rest) =
        (ts.applyEdit g pid e).applyEdits g pid rest := rfl
    rw [this]
    exact ih _ hstep

theorem cancel_of_inv (pid : String) (pref R : Nat) (snap : PyPath α)
    (oc : List (Wp α)) (ts : TabState α)
    (hInv : EditInv pid pref R snap oc ts) :
    ∃ p3, (ts.cancel_path_editing).pm.get_path_by_id pid = some p3 ∧
      (ts.cancel_path_editing).heap.get p3.pointsRef = oc ∧
      p3.distance_nm = snap.distance_nm ∧
      p3.speed_kts = snap.speed_kts ∧
      p3.altitude_ft = snap.altitude_ft ∧
      p3.current_position = snap.current_position ∧
      p3.pointsRef = R + 1 ∧
      (ts.cancel_path_editing).editing_path_id = none := by
  obtain ⟨hed, horig, hsr, hlen, hgetR, hlive⟩ := hInv
  unfold TabState.cancel_path_editing
  simp only [hed, horig]
  rcases hlive with ⟨q, hq, hr⟩ | ⟨ha, q, hq, hr⟩
  · rw [if_pos (by rw [hq]; rfl)]
    refine ⟨restoreFields snap (ts.heap.alloc (ts.heap.get snap.pointsRef)).2 q, ?_, ?_, rfl, rfl, rfl, rfl, ?_, rfl⟩
    · refine get_path_by_id_of_air _ _ _ ?_
      have key := assocGet_assocSet ts.pm.aircraft_paths pid pid (restoreFields snap (ts.heap.alloc (ts.heap.get snap.pointsRef)).2)
      rw [if_pos rfl, hq, Option.map_some'] at key
      exact key
    · show (ts.heap.alloc (ts.heap.get snap.pointsRef)).1.get (ts.heap.alloc (ts.heap.get snap.pointsRef)).2 = oc
      rw [heap_get_alloc_self, hsr]
      exact hgetR
    · show (ts.heap.alloc (ts.heap.get snap.pointsRef)).2 = R + 1
      exact hlen
  · rw [if_neg (by rw [ha]; simp), if_pos (by rw [hq]; rfl)]
    refine ⟨restoreFields snap (ts.heap.alloc (ts.heap.get snap.pointsRef)).2 q, ?_, ?_, rfl, rfl, rfl, rfl, ?_, rfl⟩
    · refine get_path_by_id_of_trk _ _ _ ha ?_
      have key := assocGet_assocSet ts.pm.track_paths pid pid (restoreFields snap (ts.heap.alloc (ts.heap.get snap.pointsRef)).2)
      rw [if_pos rfl, hq, Option.map_some'] at key
      exact key
    · show (ts.heap.alloc (ts.heap.get snap.pointsRef)).1.get (ts.heap.alloc (ts.heap.get snap.pointsRef)).2 = oc
      rw [heap_get_alloc_self, hsr]
      exact hgetR
    · show (ts.heap.alloc (ts.heap.get snap.pointsRef)).2 = R + 1
      exact hlen

theorem advance_path_distance (delta : α) (p : PyPath α) :
    (advance_path delta p).distance_nm = p.distance_nm := by
  unfold advance_path
  split <;> rfl

theorem advance_path_id (delta : α) (p : PyPath α) :
    (advance_path delta p).id = p.id := by
  unfold advance_path
  split <;> rfl

theorem advance_path_of_zero (delta : α) (p : PyPath α)
    (hd : p.distance_nm = 0) : advance_path delta p = p := by
  unfold advance_path
  rw [if_neg]
  rw [hd]
  exact lt_irrefl 0

theorem advance_path_of_pos (delta : α) (p : PyPath α)
    (hd : 0 < p.distance_nm) (hpos : 0 ≤ p.current_position)
    (hsp : 0 ≤ p.speed_kts) (hdel : 0 ≤ delta) :
    advance_path delta p =
      { p with current_position :=
          Int.fract (p.current_position +
            p.speed_kts / 3600 * delta / p.distance_nm) } := by
  have hstep : (0 : α) ≤ p.speed_kts / 3600 * delta / p.distance_nm :=
    div_nonneg (mul_nonneg (div_nonneg hsp (by norm_num)) hdel) hd.le
  simp only [advance_path, hd, if_true]
  by_cases hwrap :
      (1 : α) ≤ p.current_position + p.speed_kts / 3600 * delta / p.distance_nm
  · rw [if_pos hwrap]
  · rw [if_neg hwrap]
    have hself : Int.fract (p.current_position +
        p.speed_kts / 3600 * delta / p.distance_nm) =
        p.current_position + p.speed_kts / 3600 * delta / p.distance_nm :=
      Int.fract_eq_self.mpr ⟨by positivity, lt_of_not_le hwrap⟩
    rw [hself]

theorem update_positions_air_lookup (g : Geo α) (pm : PathManager α)
    (h : Heap α) (delta : α) (pid : String) :
    assocGet (pm.update_positions g h delta).1.aircraft_paths pid =
      (assocGet pm.aircraft_paths pid).map (advance_path delta) := by
  unfold PathManager.update_positions
  exact assocGet_mapVal pm.aircraft_paths pid (advance_path delta)

theorem update_positions_trk_lookup (g : Geo α) (pm : PathManager α)
    (h : Heap α) (delta : α) (pid : String) :
    assocGet (pm.update_positions g h delta).1.track_paths pid =
      (assocGet pm.track_paths pid).map (advance_path delta) := by
  unfold PathManager.update_positions
  exact assocGet_mapVal pm.track_paths pid (advance_path delta)

theorem mk_update_id (g : Geo α) (h : Heap α) (ty : String) (p : PyPath α) :
    (mk_update g h ty p).id = p.id := rfl

theorem map_id_filterMap_updates (g : Geo α) (h : Heap α) (ty : String)
    (l : List (String × PyPath α)) :
    ((l.filterMap (fun e =>
        if 0 < e.2.distance_nm then some (mk_update g h ty e.2) else none)).map
      (fun u => u.id)) =
      (l.filter (fun e => decide (0 < e.2.distance_nm))).map (fun e => e.2.id) := by
  induction l with
  | nil => rfl
  | cons e t ih =>
    by_cases hd : 0 < e.2.distance_nm
    · simp [List.filterMap_cons, List.filter_cons, hd, ih, mk_update_id]
    · simp [List.filterMap_cons, List.filter_cons, hd, ih]

theorem filter_map_advance_ids (delta : α) (l : List (String × PyPath α)) :
    (((l.map (fun e => (e.1, advance_path delta e.2))).filter
        (fun e => decide (0 < e.2.distance_nm))).map (fun e => e.2.id)) =
      (l.filter (fun e => decide (0 < e.2.distance_nm))).map (fun e => e.2.id) := by
  induction l with
  | nil => rfl
  | cons e t ih =>
    by_cases hd : 0 < e.2.distance_nm <;>
      simp [List.filter_cons, advance_path_distance, advance_path_id, hd, ih]

theorem update_positions_batch_ids (g : Geo α) (pm : PathManager α)
    (h : Heap α) (delta : α) :
    (pm.update_positions g h delta).2.map (fun u => u.id) =
      ((pm.aircraft_paths.filter (fun e => decide (0 < e.2.distance_nm))).map
        (fun e => e.2.id)) ++
      ((pm.track_paths.filter (fun e => decide (0 < e.2.distance_nm))).map
        (fun e => e.2.id)) := by
  unfold PathManager.update_positions
  rw [List.map_append, map_id_filterMap_updates, map_id_filterMap_updates,
    filter_map_advance_ids, filter_map_advance_ids]

/-! Theorems for the claims. -/

/-- Claim C5, counterexample: `add_aircraft_path` called with an empty
waypoint list nevertheless creates a path entity and consumes the next
identifier — the source has no minimum-length validation. -/
theorem C5_counterexample :
    (((⟨[], [], 1, 1⟩ : PathManager ℚ).add_aircraft_path ⟨[]⟩ [] 0 none none
        450 15000 "t").1.aircraft_paths.length = 1) ∧
    (((⟨[], [], 1, 1⟩ : PathManager ℚ).add_aircraft_path ⟨[]⟩ [] 0 none none
        450 15000 "t").1.next_aircraft_id = 2) := by
  decide

/-- Claim C5 amended: `createPath` performs no waypoint-count
validation.  For every waypoint list, including lists with fewer than 2
entries, `add_aircraft_path` / `add_track_path` append a new path entity
under the freshly allocated identifier and increment the corresponding
counter. -/
theorem C5_amended (pm : PathManager α) (h : Heap α) (pts : List (Wp α))
    (dist : α) (sp al : Option α) (rs ra : α) (cr : String) :
    (pm.add_aircraft_path h pts dist sp al rs ra cr).1.aircraft_paths =
      pm.aircraft_paths ++ [("AC-" ++ pad4 pm.next_aircraft_id,
        (pm.add_aircraft_path h pts dist sp al rs ra cr).2.2.2)] ∧
    (pm.add_aircraft_path h pts dist sp al rs ra cr).1.next_aircraft_id =
      pm.next_aircraft_id + 1 ∧
    (pm.add_track_path h pts dist sp al rs ra cr).1.track_paths =
      pm.track_paths ++ [("TRK-" ++ pad4 pm.next_track_id,
        (pm.add_track_path h pts dist sp al rs ra cr).2.2.2)] ∧
    (pm.add_track_path h pts dist sp al rs ra cr).1.next_track_id =
      pm.next_track_id + 1 :=
  ⟨rfl, rfl, rfl, rfl⟩

/-- Claim C10: an explicitly supplied speed of 0 or altitude of 0 is
treated as absent by the Python truthiness test, independently of the
other argument (which may be omitted, zero, or a nonzero value): the
call is equivalent to omitting that argument, and the created path
receives the random draw from the kind's documented range for the
zeroed scalar — for both the aircraft and the track kind. -/
theorem C10_zero_scalar_treated_as_absent (pm : PathManager α) (h : Heap α)
    (pts : List (Wp α)) (dist : α) (sp al : Option α)
    (rs ra rst rat : α) (cr : String)
    (hrs : 400 ≤ rs ∧ rs ≤ 550) (hra : 10000 ≤ ra ∧ ra ≤ 35000)
    (hrst : 350 ≤ rst ∧ rst ≤ 500) (hrat : 5000 ≤ rat ∧ rat ≤ 20000) :
    (pm.add_aircraft_path h pts dist (some 0) al rs ra cr =
      pm.add_aircraft_path h pts dist none al rs ra cr) ∧
    ((pm.add_aircraft_path h pts dist (some 0) al rs ra cr).2.2.2.speed_kts = rs ∧
      400 ≤ (pm.add_aircraft_path h pts dist (some 0) al rs ra cr).2.2.2.speed_kts ∧
      (pm.add_aircraft_path h pts dist (some 0) al rs ra cr).2.2.2.speed_kts ≤ 550) ∧
    (pm.add_aircraft_path h pts dist sp (some 0) rs ra cr =
      pm.add_aircraft_path h pts dist sp none rs ra cr) ∧
    ((pm.add_aircraft_path h pts dist sp (some 0) rs ra cr).2.2.2.altitude_ft = ra ∧
      10000 ≤ (pm.add_aircraft_path h pts dist sp (some 0) rs ra cr).2.2.2.altitude_ft ∧
      (pm.add_aircraft_path h pts dist sp (some 0) rs ra cr).2.2.2.altitude_ft ≤ 35000) ∧
    (pm.add_track_path h pts dist (some 0) al rst rat cr =
      pm.add_track_path h pts dist none al rst rat cr) ∧
    ((pm.add_track_path h pts dist (some 0) al rst rat cr).2.2.2.speed_kts = rst ∧
      350 ≤ (pm.add_track_path h pts dist (some 0) al rst rat cr).2.2.2.speed_kts ∧
      (pm.add_track_path h pts dist (some 0) al rst rat cr).2.2.2.speed_kts ≤ 500) ∧
    (pm.add_track_path h pts dist sp (some 0) rst rat cr =
      pm.add_track_path h pts dist sp none rst rat cr) ∧
    ((pm.add_track_path h pts dist sp (some 0) rst rat cr).2.2.2.altitude_ft = rat ∧
      5000 ≤ (pm.add_track_path h pts dist sp (some 0) rst rat cr).2.2.2.altitude_ft ∧
      (pm.add_track_path h pts dist sp (some 0) rst rat cr).2.2.2.altitude_ft ≤ 20000) := by
  refine ⟨by simp [PathManager.add_aircraft_path], ?_,
    by simp [PathManager.add_aircraft_path], ?_,
    by simp [PathManager.add_track_path], ?_,
    by simp [PathManager.add_track_path], ?_⟩
  · refine ⟨by simp [PathManager.add_aircraft_path], ?_, ?_⟩
    · simpa [PathManager.add_aircraft_path] using hrs.1
    · simpa [PathManager.add_aircraft_path] using hrs.2
  · refine ⟨by simp [PathManager.add_aircraft_path], ?_, ?_⟩
    · simpa [PathManager.add_aircraft_path] using hra.1
    · simpa [PathManager.add_aircraft_path] using hra.2
  · refine ⟨by simp [PathManager.add_track_path], ?_, ?_⟩
    · simpa [PathManager.add_track_path] using hrst.1
    · simpa [PathManager.add_track_path] using hrst.2
  · refine ⟨by simp [PathManager.add_track_path], ?_, ?_⟩
    · simpa [PathManager.add_track_path] using hrat.1
    · simpa [PathManager.add_track_path] using hrat.2

/-- Witness for C10 at concrete inputs, exercising the mixed cases:
speed 0 supplied together with a nonzero explicit altitude, and
altitude 0 supplied together with a nonzero explicit speed. -/
theorem C10_witness :
    (((400 : ℚ) ≤ 500 ∧ (500 : ℚ) ≤ 550) ∧
      ((10000 : ℚ) ≤ 20000 ∧ (20000 : ℚ) ≤ 35000) ∧
      ((350 : ℚ) ≤ 400 ∧ (400 : ℚ) ≤ 500) ∧
      ((5000 : ℚ) ≤ 6000 ∧ (6000 : ℚ) ≤ 20000)) ∧
    (pmQ0.add_aircraft_path heapQ0 [(20, 78), (21, 79)] 83 (some 0)
        (some 15000) 500 20000 "t" =
      pmQ0.add_aircraft_path heapQ0 [(20, 78), (21, 79)] 83 none
        (some 15000) 500 20000 "t") ∧
    (pmQ0.add_aircraft_path heapQ0 [(20, 78), (21, 79)] 83 (some 450)
        (some 0) 500 20000 "t" =
      pmQ0.add_aircraft_path heapQ0 [(20, 78), (21, 79)] 83 (some 450)
        none 500 20000 "t") :=
  ⟨⟨⟨by decide, by decide⟩, ⟨by decide, by decide⟩, ⟨by decide, by decide⟩,
    ⟨by decide, by decide⟩⟩,
   (C10_zero_scalar_treated_as_absent pmQ0 heapQ0 [(20, 78), (21, 79)] 83
      (some 450) (some 15000) 500 20000 400 6000 "t"
      ⟨by decide, by decide⟩ ⟨by decide, by decide⟩
      ⟨by decide, by decide⟩ ⟨by decide, by decide⟩).1,
   (C10_zero_scalar_treated_as_absent pmQ0 heapQ0 [(20, 78), (21, 79)] 83
      (some 450) (some 15000) 500 20000 400 6000 "t"
      ⟨by decide, by decide⟩ ⟨by decide, by decide⟩
      ⟨by decide, by decide⟩ ⟨by decide, by decide⟩).2.2.1⟩

/-- Claim C4: `remove_waypoint` fails, leaving the manager and the heap
untouched, on an unknown id, on an out-of-range index, and whenever the
path has only 2 waypoints (more generally whenever removal would drop
the count below 2, since the guard requires strictly more than 2 points);
on success it pops the waypoint at the index in place and recomputes the
distance over the shortened sequence. -/
theorem C4_remove_waypoint_guards (g : Geo α) (pm : PathManager α)
    (h : Heap α) (pid : String) (index : Int) :
    (pm.get_path_by_id pid = none →
      pm.remove_waypoint g h pid index = (pm, h, false)) ∧
    (∀ p, pm.get_path_by_id pid = some p →
      ((h.get p.pointsRef).length = 2 →
        pm.remove_waypoint g h pid index = (pm, h, false)) ∧
      (¬(2 < (h.get p.pointsRef).length ∧ 0 ≤ index ∧
          index < ((h.get p.pointsRef).length : Int)) →
        pm.remove_waypoint g h pid index = (pm, h, false)) ∧
      ((2 < (h.get p.pointsRef).length ∧ 0 ≤ index ∧
          index < ((h.get p.pointsRef).length : Int)) →
        p.pointsRef < h.mem.length →
        (pm.remove_waypoint g h pid index).2.2 = true ∧
        (∃ q, (pm.remove_waypoint g h pid index).1.get_path_by_id pid = some q ∧
          q.pointsRef = p.pointsRef ∧
          q.distance_nm =
            g.calcDist ((h.get p.pointsRef).eraseIdx index.toNat)) ∧
        (pm.remove_waypoint g h pid index).2.1.get p.pointsRef =
          (h.get p.pointsRef).eraseIdx index.toNat)) := by
  constructor
  · intro hnone
    exact remove_waypoint_of_none g pm h pid index hnone
  · intro p hp
    refine ⟨?_, ?_, ?_⟩
    · intro hlen
      rw [remove_waypoint_of_found g pm h pid index p hp]
      have hng : ¬(2 < (h.get p.pointsRef).length ∧ 0 ≤ index ∧
          index < ((h.get p.pointsRef).length : Int)) := by
        rw [hlen]; intro hc; exact absurd hc.1 (by omega)
      rw [if_neg hng]
    · intro hguard
      rw [remove_waypoint_of_found g pm h pid index p hp, if_neg hguard]
    · intro hguard hwf
      rw [remove_waypoint_of_found g pm h pid index p hp, if_pos hguard]
      refine ⟨rfl, ?_, ?_⟩
      · have hq := get_path_by_id_modifyPath pm pid (fun q =>
          { q with distance_nm :=
              g.calcDist ((h.get p.pointsRef).eraseIdx index.toNat) })
        rw [hp] at hq
        exact ⟨_, hq, rfl, rfl⟩
      · exact heap_get_set_self h p.pointsRef _ hwf

/-- Claim C1: for any stored path and any sequence of edit commands
(waypoint move, insert, delete) applied while the edit session on it is
active, with no advance ticks in between, `beginEdit; edits; cancel`
restores the live path's waypoint contents, distance, speed, altitude
and progress to exactly their begin-time values, the session returns to
idle, and the restored waypoint list is a fresh list object that does
not alias the discarded snapshot's list. -/
theorem C1_cancel_restores (g : Geo α) (ts0 : TabState α) (pid : String)
    (p : PyPath α) (edits : List (EditOp α))
    (hp : ts0.pm.get_path_by_id pid = some p)
    (hwf : p.pointsRef < ts0.heap.mem.length) :
    ∃ p3,
      (((ts0.start_path_editing pid).applyEdits g pid edits).cancel_path_editing).pm.get_path_by_id pid = some p3 ∧
      (((ts0.start_path_editing pid).applyEdits g pid edits).cancel_path_editing).heap.get p3.pointsRef = ts0.heap.get p.pointsRef ∧
      p3.distance_nm = p.distance_nm ∧
      p3.speed_kts = p.speed_kts ∧
      p3.altitude_ft = p.altitude_ft ∧
      p3.current_position = p.current_position ∧
      (∀ snap, ((ts0.start_path_editing pid).applyEdits g pid edits).original_path_data = some snap → p3.pointsRef ≠ snap.pointsRef) ∧
      (((ts0.start_path_editing pid).applyEdits g pid edits).cancel_path_editing).editing_path_id = none := by
  have hne : p.pointsRef ≠ ts0.heap.mem.length := Nat.ne_of_lt hwf
  have hInv1 : EditInv pid p.pointsRef ts0.heap.mem.length
      { p with pointsRef := ts0.heap.mem.length } (ts0.heap.get p.pointsRef)
      (ts0.start_path_editing pid) := by
    rw [start_path_editing_of_found ts0 pid p hp]
    refine ⟨rfl, rfl, rfl, ?_, ?_, ?_⟩
    · show (ts0.heap.alloc (ts0.heap.get p.pointsRef)).1.mem.length = ts0.heap.mem.length + 1
      rw [heap_length_alloc]
    · show (ts0.heap.alloc (ts0.heap.get p.pointsRef)).1.get ts0.heap.mem.length = ts0.heap.get p.pointsRef
      exact heap_get_alloc_self ts0.heap (ts0.heap.get p.pointsRef)
    · rcases get_path_by_id_cases ts0.pm pid p hp with hair | ⟨hanone, htr⟩
      · exact Or.inl ⟨p, hair, rfl⟩
      · exact Or.inr ⟨hanone, p, htr, rfl⟩
  have hInv2 := applyEdits_inv g pid p.pointsRef ts0.heap.mem.length
    { p with pointsRef := ts0.heap.mem.length } (ts0.heap.get p.pointsRef)
    hne edits _ hInv1
  have hInv2b := hInv2
  obtain ⟨he2, ho2, hs2, hl2, hg2, hlv2⟩ := hInv2b
  obtain ⟨p3, h1, h2, h3, h4, h5, h6, h7, h8⟩ :=
    cancel_of_inv pid p.pointsRef ts0.heap.mem.length
      { p with pointsRef := ts0.heap.mem.length } (ts0.heap.get p.pointsRef)
      _ hInv2
  refine ⟨p3, h1, h2, h3, h4, h5, h6, ?_, h8⟩
  intro snap2 hsnap2
  rw [ho2] at hsnap2
  cases hsnap2
  rw [h7]
  intro hcontra
  have hrr : ({ p with pointsRef := ts0.heap.mem.length } : PyPath α).pointsRef = ts0.heap.mem.length := rfl
  rw [hrr] at hcontra
  omega

/-- Witness for C1: the concrete three-waypoint path edited by an
insertion, a move and a deletion, then cancelled. -/
theorem C1_witness :
    (tsQ3.pm.get_path_by_id "AC-0001" = some pathQ3 ∧
      pathQ3.pointsRef < tsQ3.heap.mem.length) ∧
    (∃ p3,
      (((tsQ3.start_path_editing "AC-0001").applyEdits gQ "AC-0001" [EditOp.ins 1 22 79.5, EditOp.move 0 19 77, EditOp.del 2]).cancel_path_editing).pm.get_path_by_id "AC-0001" = some p3 ∧
      (((tsQ3.start_path_editing "AC-0001").applyEdits gQ "AC-0001" [EditOp.ins 1 22 79.5, EditOp.move 0 19 77, EditOp.del 2]).cancel_path_editing).heap.get p3.pointsRef = tsQ3.heap.get pathQ3.pointsRef ∧
      p3.distance_nm = pathQ3.distance_nm ∧
      p3.speed_kts = pathQ3.speed_kts ∧
      p3.altitude_ft = pathQ3.altitude_ft ∧
      p3.current_position = pathQ3.current_position ∧
      (∀ snap, ((tsQ3.start_path_editing "AC-0001").applyEdits gQ "AC-0001" [EditOp.ins 1 22 79.5, EditOp.move 0 19 77, EditOp.del 2]).original_path_data = some snap → p3.pointsRef ≠ snap.pointsRef) ∧
      (((tsQ3.start_path_editing "AC-0001").applyEdits gQ "AC-0001" [EditOp.ins 1 22 79.5, EditOp.move 0 19 77, EditOp.del 2]).cancel_path_editing).editing_path_id = none) :=
  ⟨⟨by decide, by decide⟩,
   C1_cancel_restores gQ tsQ3 "AC-0001" pathQ3
     [EditOp.ins 1 22 79.5, EditOp.move 0 19 77, EditOp.del 2]
     (by decide) (by decide)⟩

/-- Claim C2: for every path with positive distance, one `advance` call
sets its progress to `fract(progress + (speed/3600*elapsed)/distance)`
(the source adds the delta and applies `% 1.0` once the sum reaches 1,
which for in-range inputs is exactly the fractional part), and the
result stays in `[0, 1)`; a path with distance 0 is left unchanged; the
batch contains exactly one entry per path with positive distance, in
store order (aircraft then tracks). -/
theorem C2_advance_progress_and_batch (g : Geo α) (pm : PathManager α)
    (h : Heap α) (delta : α) (hdel : 0 ≤ delta) :
    (∀ pid p, assocGet pm.aircraft_paths pid = some p →
      0 ≤ p.current_position → 0 ≤ p.speed_kts →
      (0 < p.distance_nm →
        assocGet (pm.update_positions g h delta).1.aircraft_paths pid =
          some { p with current_position := Int.fract (p.current_position + p.speed_kts / 3600 * delta / p.distance_nm) } ∧
        0 ≤ Int.fract (p.current_position +
              p.speed_kts / 3600 * delta / p.distance_nm) ∧
        Int.fract (p.current_position +
              p.speed_kts / 3600 * delta / p.distance_nm) < 1) ∧
      (p.distance_nm = 0 →
        assocGet (pm.update_positions g h delta).1.aircraft_paths pid =
          some p)) ∧
    (∀ pid p, assocGet pm.track_paths pid = some p →
      0 ≤ p.current_position → 0 ≤ p.speed_kts →
      (0 < p.distance_nm →
        assocGet (pm.update_positions g h delta).1.track_paths pid =
          some { p with current_position := Int.fract (p.current_position + p.speed_kts / 3600 * delta / p.distance_nm) } ∧
        0 ≤ Int.fract (p.current_position +
              p.speed_kts / 3600 * delta / p.distance_nm) ∧
        Int.fract (p.current_position +
              p.speed_kts / 3600 * delta / p.distance_nm) < 1) ∧
      (p.distance_nm = 0 →
        assocGet (pm.update_positions g h delta).1.track_paths pid =
          some p)) ∧
    (pm.update_positions g h delta).2.map (fun u => u.id) =
      ((pm.aircraft_paths.filter (fun e => decide (0 < e.2.distance_nm))).map
        (fun e => e.2.id)) ++
      ((pm.track_paths.filter (fun e => decide (0 < e.2.distance_nm))).map
        (fun e => e.2.id)) := by
  refine ⟨?_, ?_, update_positions_batch_ids g pm h delta⟩
  · intro pid p hp hpos hsp
    constructor
    · intro hd
      refine ⟨?_, Int.fract_nonneg _, Int.fract_lt_one _⟩
      rw [update_positions_air_lookup, hp, Option.map_some',
        advance_path_of_pos delta p hd hpos hsp hdel]
    · intro hd
      rw [update_positions_air_lookup, hp, Option.map_some',
        advance_path_of_zero delta p hd]
  · intro pid p hp hpos hsp
    constructor
    · intro hd
      refine ⟨?_, Int.fract_nonneg _, Int.fract_lt_one _⟩
      rw [update_positions_trk_lookup, hp, Option.map_some',
        advance_path_of_pos delta p hd hpos hsp hdel]
    · intro hd
      rw [update_positions_trk_lookup, hp, Option.map_some',
        advance_path_of_zero delta p hd]

/-- Witness for C2: the concrete 2-waypoint path (distance 83, speed
450, progress 0) advanced by one simulated hour. -/
theorem C2_witness :
    ((0 : ℚ) ≤ 3600 ∧
      assocGet pmQ2.aircraft_paths "AC-0001" = some pathQ2 ∧
      0 ≤ pathQ2.current_position ∧ 0 ≤ pathQ2.speed_kts ∧
      0 < pathQ2.distance_nm) ∧
    assocGet (pmQ2.update_positions gQ heapQ2 3600).1.aircraft_paths
        "AC-0001" =
      some { pathQ2 with current_position := Int.fract (pathQ2.current_position + pathQ2.speed_kts / 3600 * 3600 / pathQ2.distance_nm) } :=
  ⟨⟨by decide, by decide, by decide, by decide, by decide⟩,
   (((C2_advance_progress_and_batch gQ pmQ2 heapQ2 3600 (by decide)).1
     "AC-0001" pathQ2 (by decide) (by decide) (by decide)).1 (by decide)).1⟩

/-- Claim C6, counterexample: `beginEdit(p1)` followed by `beginEdit(p2)`
with no intervening commit/cancel does not fail and does not retain the
existing session — the target and snapshot are replaced by `p2`'s. -/
theorem C6_counterexample :
    tsQB1.editing_path_id = some "AC-0001" ∧
    tsQB2.editing_path_id = some "AC-0002" ∧
    tsQB2.original_path_data.map (fun p => p.id) = some "AC-0002" := by
  exact ⟨by decide, by decide, by decide⟩

/-- Claim C6 amended: `start_path_editing` has no session-active guard.
A second `beginEdit` while a session is active does not fail with
`SessionAlreadyActive`; it silently replaces the session, overwriting
the target id and the snapshot with the second path's data (the first
snapshot is discarded).  The second path's stored state is untouched:
`start_path_editing` never modifies the path manager.  (The GUI only
disables the edit button while a session is active.) -/
theorem C6_begin_replaces_session (ts : TabState α) (pid1 pid2 : String)
    (p2 : PyPath α)
    (hactive : ts.editing_path_id = some pid1)
    (hp2 : ts.pm.get_path_by_id pid2 = some p2) :
    (ts.start_path_editing pid2).editing_path_id = some pid2 ∧
    (ts.start_path_editing pid2).original_path_data =
      some { p2 with pointsRef := ts.heap.mem.length } ∧
    (ts.start_path_editing pid2).pm = ts.pm := by
  unfold TabState.start_path_editing
  rw [hp2]
  exact ⟨rfl, rfl, rfl⟩

/-- Witness for C6 at the concrete two-path state. -/
theorem C6_witness :
    tsQB1.editing_path_id = some "AC-0001" ∧
    tsQB1.pm.get_path_by_id "AC-0002" = some pathQB2 ∧
    (tsQB1.start_path_editing "AC-0002").editing_path_id = some "AC-0002" :=
  ⟨by decide, by decide,
   (C6_begin_replaces_session tsQB1 "AC-0001" "AC-0002" pathQB2 (by decide)
     (by decide)).1⟩

/-- Claim C8, counterexample: `get_path_by_id` returns a shallow
`dict.copy()` whose `points` entry is the stored list object itself.
Mutating the waypoint list reached through the returned record (address
`pathQ2.pointsRef`) changes the stored path's observable waypoints from
`[(20, 78), (21, 79)]` to `[(0, 0)]`. -/
theorem C8_counterexample :
    pmQ2.get_path_by_id "AC-0001" = some pathQ2 ∧
    heapQ2.get pathQ2.pointsRef = [(20, 78), (21, 79)] ∧
    (heapQ2.set pathQ2.pointsRef [(0, 0)]).get pathQ2.pointsRef =
      [((0 : ℚ), (0 : ℚ))] := by
  exact ⟨by decide, by decide, by decide⟩

/-- Claim C8 amended: `get_path_by_id` returns `none` for an unknown id
and otherwise returns the stored record itself (a shallow `dict.copy()`:
the scalar fields are independent values, but the points list is the
same heap object as the store's, so in-place mutation through the
returned value is visible in the store); `get_all_paths` likewise
returns the stored records of both partitions. -/
theorem C8_shallow_copy_semantics (pm : PathManager α) (pid : String) :
    (pm.get_path_by_id pid = none ↔
      assocGet pm.aircraft_paths pid = none ∧
      assocGet pm.track_paths pid = none) ∧
    (∀ p, pm.get_path_by_id pid = some p →
      assocGet pm.aircraft_paths pid = some p ∨
      assocGet pm.track_paths pid = some p) ∧
    pm.get_all_paths = pm.aircraft_paths ++ pm.track_paths := by
  refine ⟨?_, ?_, rfl⟩
  · unfold PathManager.get_path_by_id
    cases ha : assocGet pm.aircraft_paths pid with
    | some p => simp [ha]
    | none => simp [ha]
  · intro p hp
    unfold PathManager.get_path_by_id at hp
    cases ha : assocGet pm.aircraft_paths pid with
    | some q =>
      rw [ha] at hp
      exact Or.inl hp
    | none =>
      rw [ha] at hp
      exact Or.inr hp

/-- Witness for C8 at the concrete one-path state. -/
theorem C8_witness :
    pmQ2.get_path_by_id "AC-0001" = some pathQ2 ∧
    (assocGet pmQ2.aircraft_paths "AC-0001" = some pathQ2 ∨
      assocGet pmQ2.track_paths "AC-0001" = some pathQ2) :=
  ⟨by decide,
   (C8_shallow_copy_semantics pmQ2 "AC-0001").2.1 pathQ2 (by decide)⟩

/-- Claim C9, counterexample: with an edit session active on `AC-0001`,
a delete request for `AC-0001` is not rejected with `PathLocked`: the
path is removed from the store while the session remains active on it. -/
theorem C9_counterexample :
    tsQ2E.editing_path_id = some "AC-0001" ∧
    tsQ2E.pm.get_path_by_id "AC-0001" = some pathQ2 ∧
    (tsQ2E.delete_selected_path "AC-0001").pm.get_path_by_id "AC-0001" =
      none ∧
    (tsQ2E.delete_selected_path "AC-0001").editing_path_id =
      some "AC-0001" := by
  exact ⟨by decide, by decide, by decide, by decide⟩

/-- Claim C9 amended: neither `delete_selected_path` nor
`PathManager.delete_path` consults the edit session — deleting the
session's target path succeeds, removing it from the store and leaving
the session fields (target id and snapshot) untouched, i.e. dangling.
(The GUI only disables the delete button while a session is active.) -/
theorem C9_delete_ignores_session (ts : TabState α) (pid : String)
    (p : PyPath α)
    (hedit : ts.editing_path_id = some pid)
    (hp : ts.pm.get_path_by_id pid = some p)
    (hnodup : ¬((assocGet ts.pm.aircraft_paths pid).isSome ∧
        (assocGet ts.pm.track_paths pid).isSome)) :
    (ts.delete_selected_path pid).pm.get_path_by_id pid = none ∧
    (ts.delete_selected_path pid).editing_path_id = some pid ∧
    (ts.delete_selected_path pid).original_path_data =
      ts.original_path_data := by
  refine ⟨?_, by simpa [TabState.delete_selected_path] using hedit, rfl⟩
  unfold TabState.delete_selected_path PathManager.delete_path
  unfold PathManager.get_path_by_id at hp ⊢
  cases ha : assocGet ts.pm.aircraft_paths pid with
  | some q =>
    have htr : assocGet ts.pm.track_paths pid = none := by
      rcases hh : assocGet ts.pm.track_paths pid with _ | r
      · rfl
      · exact absurd ⟨by simp [ha], by simp [hh]⟩ hnodup
    simp [ha, assocGet_assocRemove_self, htr]
  | none =>
    rw [ha] at hp
    have hp2 : assocGet ts.pm.track_paths pid = some p := hp
    simp [ha, hp2, assocGet_assocRemove_self]

/-- Witness for C9 at the concrete editing state. -/
theorem C9_witness :
    (tsQ2E.editing_path_id = some "AC-0001" ∧
      tsQ2E.pm.get_path_by_id "AC-0001" = some pathQ2) ∧
    (tsQ2E.delete_selected_path "AC-0001").editing_path_id =
      some "AC-0001" :=
  ⟨⟨by decide, by decide⟩,
   (C9_delete_ignores_session tsQ2E "AC-0001" pathQ2 (by decide) (by decide)
     (by decide)).2.1⟩

/-- Witness for C4: removing waypoint 0 from the concrete 2-waypoint
path `AC-0001` fails and leaves the state untouched. -/
theorem C4_witness :
    pmQ2.get_path_by_id "AC-0001" = some pathQ2 ∧
    (heapQ2.get pathQ2.pointsRef).length = 2 ∧
    pmQ2.remove_waypoint gQ heapQ2 "AC-0001" 0 = (pmQ2, heapQ2, false) :=
  ⟨by decide, by decide,
   ((C4_remove_waypoint_guards gQ pmQ2 heapQ2 "AC-0001" 0).2 pathQ2
     (by decide)).1 (by decide)⟩

/-! Geodesy lemmas (claims C7 and C3). -/

theorem sin_half_sq (x : ℝ) : Real.sin (x / 2) ^ 2 = (1 - Real.cos x) / 2 := by
  have hx : 2 * (x / 2) = x := by ring
  have h2 := Real.cos_sq (x / 2)
  rw [hx] at h2
  have h := Real.sin_sq (x / 2)
  rw [h2] at h
  rw [h]
  ring

/-- The haversine intermediate always lies in `[0, 1]` over the reals,
for arbitrary (even out-of-range) latitude/longitude inputs, because it
equals `(1 - cos θ)/2` for the central angle `θ`. -/
theorem hav_mem_unit (p1 p2 : Wp ℝ) : 0 ≤ hav p1 p2 ∧ hav p1 p2 ≤ 1 := by
  unfold hav
  simp only []
  rw [sin_half_sq, sin_half_sq, Real.cos_sub]
  set s1 := Real.sin (radians p1.1)
  set c1 := Real.cos (radians p1.1)
  set s2 := Real.sin (radians p2.1)
  set c2 := Real.cos (radians p2.1)
  set k := Real.cos (radians p2.2 - radians p1.2)
  have h1 : s1 ^ 2 + c1 ^ 2 = 1 := Real.sin_sq_add_cos_sq (radians p1.1)
  have h2 : s2 ^ 2 + c2 ^ 2 = 1 := Real.sin_sq_add_cos_sq (radians p2.1)
  have hk1 : k ≤ 1 := Real.cos_le_one _
  have hk2 : -1 ≤ k := Real.neg_one_le_cos _
  constructor
  · nlinarith [sq_nonneg (s1 * (c2 * k) - c1 * s2), sq_nonneg (s1 * c2 - c1 * s2),
      mul_nonneg (sub_nonneg.mpr hk1) (by linarith : (0 : ℝ) ≤ 1 + k),
      sq_nonneg (c1 * c2), sq_nonneg (s1 - s2), sq_nonneg (s1 + s2)]
  · nlinarith [sq_nonneg (s1 * (c2 * k) + c1 * s2), sq_nonneg (s1 * c2 + c1 * s2),
      mul_nonneg (sub_nonneg.mpr hk1) (by linarith : (0 : ℝ) ≤ 1 + k),
      sq_nonneg (c1 * c2), sq_nonneg (s1 - s2), sq_nonneg (s1 + s2)]

theorem segDist_clamped_eq (p1 p2 : Wp ℝ) :
    segDist_clamped p1 p2 = segDist p1 p2 := by
  unfold segDist_clamped segDist
  rw [max_eq_right (hav_mem_unit p1 p2).1, min_eq_right (hav_mem_unit p1 p2).2]

theorem sumSegs_clamped_eq (pts : List (Wp ℝ)) :
    sumSegs_clamped pts = sumSegs pts := by
  match pts with
  | [] => rfl
  | [p] => rfl
  | p :: q :: rest =>
    have ih := sumSegs_clamped_eq (q :: rest)
    show segDist_clamped p q + sumSegs_clamped (q :: rest) =
      segDist p q + sumSegs (q :: rest)
    rw [segDist_clamped_eq, ih]

theorem calculate_distance_clamped_eq (pts : List (Wp ℝ)) :
    calculate_distance_clamped pts = calculate_distance pts := by
  unfold calculate_distance_clamped calculate_distance
  rw [sumSegs_clamped_eq]

theorem calculate_distance_cons (q1 q2 : Wp ℝ) (rest : List (Wp ℝ)) :
    calculate_distance (q1 :: q2 :: rest) =
      segDist q1 q2 + calculate_distance (q2 :: rest) := by
  cases rest with
  | nil => norm_num [calculate_distance, sumSegs]
  | cons r rs =>
    show calculate_distance (q1 :: q2 :: r :: rs) = _
    norm_num [calculate_distance, sumSegs]
    rw [if_neg (by omega), if_neg (by omega)]

/-- Claim C7: `_calculate_distance` returns 0 for fewer than 2
waypoints and otherwise sums pairwise haversine great-circle distances
at Earth radius 3440.065 nm; over the reals the haversine intermediate
always lies in `[0, 1]` (so the inverse trigonometric step is never fed
an out-of-domain argument, including antipodal and near-zero
separations), and consequently the source's unclamped computation agrees
exactly with the spec's clamped one. -/
theorem C7_distance_total_and_stable (pts : List (Wp ℝ)) (p1 p2 : Wp ℝ)
    (q1 q2 : Wp ℝ) (rest : List (Wp ℝ)) :
    (pts.length < 2 → calculate_distance pts = 0) ∧
    (0 ≤ hav p1 p2 ∧ hav p1 p2 ≤ 1) ∧
    calculate_distance_clamped pts = calculate_distance pts ∧
    calculate_distance (q1 :: q2 :: rest) =
      segDist q1 q2 + calculate_distance (q2 :: rest) := by
  refine ⟨?_, hav_mem_unit p1 p2, calculate_distance_clamped_eq pts,
    calculate_distance_cons q1 q2 rest⟩
  intro hlen
  unfold calculate_distance
  rw [if_pos hlen]

/-- Witness for C7 at concrete inputs. -/
theorem C7_witness :
    (([] : List (Wp ℝ)).length < 2) ∧ calculate_distance [] = 0 :=
  ⟨by decide,
   (C7_distance_total_and_stable [] (0, 0) (0, 0) (0, 0) (0, 0) []).1
     (by decide)⟩

/-! Numeric evaluation of scenario A (claim C3): rational enclosures of
the haversine value through the Taylor bounds on `sin`/`cos`. -/

theorem sin_bounds_of (x xl xh sl sh : ℝ)
    (hx1 : xl < x) (hx2 : x < xh) (hxl : 0 < xl) (hxh : xh ≤ 1)
    (hlo : sl ≤ xl - xh ^ 3 / 6 - xh ^ 4 * (5 / 96))
    (hhi : xh - xl ^ 3 / 6 + xh ^ 4 * (5 / 96) ≤ sh) :
    sl < Real.sin x ∧ Real.sin x < sh := by
  have hxpos : 0 < x := lt_trans hxl hx1
  have habs : |x| ≤ 1 := by rw [abs_of_pos hxpos]; linarith
  have hb := Real.sin_bound habs
  rw [abs_of_pos hxpos] at hb
  have hb2 := abs_sub_le_iff.mp hb
  have h3 : x ^ 3 ≤ xh ^ 3 := pow_le_pow_left hxpos.le hx2.le 3
  have h3b : xl ^ 3 ≤ x ^ 3 := pow_le_pow_left hxl.le hx1.le 3
  have h4 : x ^ 4 ≤ xh ^ 4 := pow_le_pow_left hxpos.le hx2.le 4
  have h4b : 0 ≤ x ^ 4 := by positivity
  constructor
  · nlinarith [hb2.2]
  · nlinarith [hb2.1]

theorem sinx360_bounds :
    (0.0087265 : ℝ) < Real.sin (Real.pi / 360) ∧
    Real.sin (Real.pi / 360) < 0.0087266 := by
  refine sin_bounds_of (Real.pi / 360) 0.00872664 0.00872665 _ _ ?_ ?_
    (by norm_num) (by norm_num) (by norm_num) (by norm_num)
  · linarith [Real.pi_gt_d6]
  · linarith [Real.pi_lt_d6]

theorem cos_pi9_bounds :
    (0.939659 : ℝ) < Real.cos (Real.pi / 9) ∧
    Real.cos (Real.pi / 9) < 0.939728 := by
  have hs := sin_bounds_of (Real.pi / 18) 0.17453288 0.17453295
    0.173598 0.173696 (by linarith [Real.pi_gt_d6])
    (by linarith [Real.pi_lt_d6]) (by norm_num) (by norm_num)
    (by norm_num) (by norm_num)
  have hident : Real.cos (Real.pi / 9) = 1 - 2 * Real.sin (Real.pi / 18) ^ 2 := by
    have h := sin_half_sq (Real.pi / 9)
    have h2 : Real.pi / 9 / 2 = Real.pi / 18 := by ring
    rw [h2] at h
    linarith [h]
  rw [hident]
  constructor <;> nlinarith [hs.1, hs.2]

theorem cos_7pi60_bounds :
    (0.933538 : ℝ) < Real.cos (7 * Real.pi / 60) ∧
    Real.cos (7 * Real.pi / 60) < 0.933626 := by
  have hs := sin_bounds_of (7 * Real.pi / 120) 0.18325953 0.1832596
    0.182174 0.182293 (by linarith [Real.pi_gt_d6])
    (by linarith [Real.pi_lt_d6]) (by norm_num) (by norm_num)
    (by norm_num) (by norm_num)
  have hident : Real.cos (7 * Real.pi / 60) =
      1 - 2 * Real.sin (7 * Real.pi / 120) ^ 2 := by
    have h := sin_half_sq (7 * Real.pi / 60)
    have h2 : 7 * Real.pi / 60 / 2 = 7 * Real.pi / 120 := by ring
    rw [h2] at h
    linarith [h]
  rw [hident]
  constructor <;> nlinarith [hs.1, hs.2]

theorem hav_A_eq : hav ((20 : ℝ), 78) ((21 : ℝ), 79) =
    Real.sin (Real.pi / 360) ^ 2 *
      (1 + Real.cos (Real.pi / 9) * Real.cos (7 * Real.pi / 60)) := by
  simp only [hav, radians]
  have e1 : ((21 : ℝ) * (Real.pi / 180) - 20 * (Real.pi / 180)) / 2 =
      Real.pi / 360 := by ring
  have e2 : ((79 : ℝ) * (Real.pi / 180) - 78 * (Real.pi / 180)) / 2 =
      Real.pi / 360 := by ring
  have e3 : (20 : ℝ) * (Real.pi / 180) = Real.pi / 9 := by ring
  have e4 : (21 : ℝ) * (Real.pi / 180) = 7 * Real.pi / 60 := by ring
  rw [e1, e2, e3, e4]
  ring

theorem havA_bounds :
    (0.00014295 : ℝ) < hav ((20 : ℝ), 78) ((21 : ℝ), 79) ∧
    hav ((20 : ℝ), 78) ((21 : ℝ), 79) < 0.00014297 := by
  rw [hav_A_eq]
  obtain ⟨hs1, hs2⟩ := sinx360_bounds
  obtain ⟨hc1a, hc1b⟩ := cos_pi9_bounds
  obtain ⟨hc2a, hc2b⟩ := cos_7pi60_bounds
  have hs2q : (0.0087265 : ℝ) ^ 2 < Real.sin (Real.pi / 360) ^ 2 := by
    nlinarith [hs1, hs2]
  have hs2q2 : Real.sin (Real.pi / 360) ^ 2 < (0.0087266 : ℝ) ^ 2 := by
    nlinarith [hs1, hs2]
  have hcc : (0.939659 : ℝ) * 0.933538 <
      Real.cos (Real.pi / 9) * Real.cos (7 * Real.pi / 60) := by
    nlinarith [hc1a, hc1b, hc2a, hc2b]
  have hcc2 : Real.cos (Real.pi / 9) * Real.cos (7 * Real.pi / 60) <
      (0.939728 : ℝ) * 0.933626 := by
    nlinarith [hc1a, hc1b, hc2a, hc2b]
  constructor
  · nlinarith [hs2q, hcc, hs2q2, hcc2]
  · nlinarith [hs2q, hcc, hs2q2, hcc2]

theorem dA_eq : dA = 3440.065 *
    (2 * Real.arcsin (Real.sqrt (hav ((20 : ℝ), 78) ((21 : ℝ), 79)))) := by
  show calculate_distance [((20 : ℝ), 78), (21, 79)] = _
  norm_num [calculate_distance, sumSegs, segDist]

theorem arcsinA_bounds :
    (0.011956 : ℝ) ≤
      Real.arcsin (Real.sqrt (hav ((20 : ℝ), 78) ((21 : ℝ), 79))) ∧
    Real.arcsin (Real.sqrt (hav ((20 : ℝ), 78) ((21 : ℝ), 79))) ≤
      0.0119575 := by
  obtain ⟨ha1, ha2⟩ := havA_bounds
  have hsq_lo : (0.011956 : ℝ) ≤
      Real.sqrt (hav ((20 : ℝ), 78) ((21 : ℝ), 79)) := by
    rw [show (0.011956 : ℝ) = Real.sqrt (0.011956 ^ 2) by
      rw [Real.sqrt_sq (by norm_num)]]
    exact Real.sqrt_le_sqrt (by nlinarith)
  have hsq_hi : Real.sqrt (hav ((20 : ℝ), 78) ((21 : ℝ), 79)) ≤
      (0.0119571 : ℝ) := by
    rw [show (0.0119571 : ℝ) = Real.sqrt (0.0119571 ^ 2) by
      rw [Real.sqrt_sq (by norm_num)]]
    exact Real.sqrt_le_sqrt (by nlinarith)
  constructor
  · have hsin : Real.sin 0.011956 < 0.011956 := Real.sin_lt (by norm_num)
    have hmono := Real.monotone_arcsin (le_trans hsin.le hsq_lo)
    rw [Real.arcsin_sin (by linarith [Real.pi_gt_three])
      (by linarith [Real.pi_gt_three])] at hmono
    exact hmono
  · have hsin2 : (0.0119571 : ℝ) ≤ Real.sin 0.0119575 := by
      have habs : |(0.0119575 : ℝ)| ≤ 1 := by
        rw [abs_of_pos (by norm_num : (0 : ℝ) < 0.0119575)]
        norm_num
      have hb := Real.sin_bound habs
      rw [abs_of_pos (by norm_num : (0 : ℝ) < 0.0119575)] at hb
      have hb2 := abs_sub_le_iff.mp hb
      nlinarith [hb2.2]
    have hmono := Real.monotone_arcsin (le_trans hsq_hi hsin2)
    rw [Real.arcsin_sin (by linarith [Real.pi_gt_three])
      (by linarith [Real.pi_gt_three])] at hmono
    exact hmono

theorem dA_bounds : (82.25 : ℝ) < dA ∧ dA < 82.27 := by
  obtain ⟨h1, h2⟩ := arcsinA_bounds
  rw [dA_eq]
  constructor <;> nlinarith [h1, h2]

theorem progressA_eq_and_bounds :
    scenarioA_progress = Int.fract (450 / dA) ∧
    (0.46 : ℝ) < Int.fract (450 / dA) ∧ Int.fract (450 / dA) < 0.48 := by
  obtain ⟨hd1, hd2⟩ := dA_bounds
  have hstruct : scenarioA_progress =
      (advance_path (3600 : ℝ) pathR0).current_position := rfl
  have hsp : pathR0.speed_kts = (450 : ℝ) := by
    show (if (450 : ℝ) = 0 then (0 : ℝ) else 450) = 450
    rw [if_neg (by norm_num)]
  have hdst : pathR0.distance_nm = dA := rfl
  have hpos : pathR0.current_position = 0 := rfl
  have hdpos : (0 : ℝ) < pathR0.distance_nm := by rw [hdst]; linarith
  have hadv := advance_path_of_pos (3600 : ℝ) pathR0 hdpos hpos.symm.le
    (by rw [hsp]; norm_num) (by norm_num)
  have harg : pathR0.current_position +
      pathR0.speed_kts / 3600 * 3600 / pathR0.distance_nm = 450 / dA := by
    rw [hpos, hsp, hdst]
    ring
  have hprog : scenarioA_progress = Int.fract (450 / dA) := by
    rw [hstruct, hadv]
    show Int.fract (pathR0.current_position +
      pathR0.speed_kts / 3600 * 3600 / pathR0.distance_nm) = _
    rw [harg]
  have hdlo : (0 : ℝ) < dA := by linarith
  have h5 : (5 : ℝ) ≤ 450 / dA := by rw [le_div_iff hdlo]; nlinarith
  have h6 : 450 / dA < 6 := by rw [div_lt_iff hdlo]; nlinarith
  have hfl : ⌊(450 / dA : ℝ)⌋ = 5 := by
    rw [Int.floor_eq_iff]
    constructor
    · exact_mod_cast h5
    · push_cast
      linarith
  have hfr : Int.fract (450 / dA) = 450 / dA - 5 := by
    rw [Int.fract, hfl]
    norm_num
  refine ⟨hprog, ?_, ?_⟩
  · rw [hfr]
    have hq : (5.46 : ℝ) < 450 / dA := by rw [lt_div_iff hdlo]; nlinarith
    linarith
  · rw [hfr]
    have hq : 450 / dA < (5.48 : ℝ) := by rw [div_lt_iff hdlo]; nlinarith
    linarith

/-- Claim C3, counterexample: for scenario A (aircraft path on
`[[20, 78], [21, 79]]`, 450 kt, 15000 ft, one `advance(3600)`), the
haversine distance is below 83 nm — not within 0.5 of the claimed
83.5 nm — and the post-advance progress exceeds 0.46 — not within 0.05
of the claimed 0.39. -/
theorem C3_counterexample :
    dA < 83 ∧ ¬(|dA - 83.5| ≤ 0.5) ∧
    (0.46 : ℝ) < scenarioA_progress ∧
    ¬(|scenarioA_progress - 0.39| ≤ 0.05) := by
  obtain ⟨hd1, hd2⟩ := dA_bounds
  obtain ⟨hp, hb1, hb2⟩ := progressA_eq_and_bounds
  refine ⟨by linarith, ?_, ?_, ?_⟩
  · intro hc
    rw [abs_le] at hc
    linarith [hc.1]
  · rw [hp]
    exact hb1
  · rw [hp]
    intro hc
    rw [abs_le] at hc
    linarith [hc.2]

/-- Claim C3 amended: scenario A's distance is ≈82.26 nm (the haversine
of the two waypoints at R = 3440.065 lies strictly between 82.25 and
82.27), one `advance(3600)` call advances the path's progress by
`450/distanceNm ≈ 5.47`, and wrapping modulo 1 leaves progress
`fract(450/distanceNm) ≈ 0.47` (strictly between 0.46 and 0.48). -/
theorem C3_amended_scenario :
    ((82.25 : ℝ) < dA ∧ dA < 82.27) ∧
    scenarioA_progress = Int.fract (450 / dA) ∧
    (0.46 : ℝ) < scenarioA_progress ∧ scenarioA_progress < 0.48 := by
  obtain ⟨hp, hb1, hb2⟩ := progressA_eq_and_bounds
  refine ⟨dA_bounds, hp, ?_, ?_⟩
  · rw [hp]
    exact hb1
  · rw [hp]
    exact hb2

end TacticalDrawing
